import Mathlib

/-!
Online exam system: attempt lifecycle and scoring.

Shallow embedding of the exam-attempt core of the repository:

* `backend/models/exam.js`, `question.js`, `result.js` (the in-memory stores),
* the scoring loops of `submitExam` (`backend/controllers/dashboardcontroller.js`)
  and `autoSubmitExam` (`backend/controllers/examcontroller.js`),
* the lifecycle handlers `startExam`, `saveExamProgress`, `saveAnswer`, `markQuestion`,
  `clearAnswer`, `submitExam`, `autoSubmitExam`.

Conventions of the embedding.

* The `_id` of a record is a natural number, the value of the counter of its model.  A user id
  (`req.user.id`) is a natural number; the id `0` is the falsy id of JavaScript
  (`query.user && ...` skips the test, `data.user || null` stores `null`).
* The exam id of a request is the route parameter, a string.  `Exam.findOne` and
  `Exam.findById` compare it with `==` to the numeric `_id` of an exam, which converts the
  string to a number (`toNumber`): `"1"`, `"01"` and `"1.0"` all name the exam `1`.  An attempt
  stores the string as it came, and the queries on attempts compare strings with strings.
  Question ids are natural numbers.
* Option values (submitted answers, `correctAnswers`) are strings, ordered by `sort()` through
  their UTF-16 code units.
* Marks and totals are rationals, the exact values of the JavaScript numbers, and a sum of
  marks is taken exactly (as it is for integer marks).  The percentage is computed as
  JavaScript computes it, in double precision: the quotient and the product are each rounded
  to the nearest double (`roundDouble`).  `NaN` and the infinities are explicit in `JsNum`;
  the two zeros are one value.  Counters, durations and times (milliseconds) are integers.
* `submitExam` calls `populate` on the promise that `Exam.findById` returns; a promise has no
  such method, the call throws and the handler replies 500 on every request.  The statements
  after that call (the scoring loop and the summary) are embedded on their own, as
  `submitScore` and `submitSummary`.
* A stored object is a reference in JavaScript: a handler mutates the record it found, and
  `save()` writes it back at the index of its own `_id`.  Here the record found is replaced
  in place (`Store.update`); `Result.save` and `save_found_record` relate the two.
-/

namespace ExamSystem

/-! ## JavaScript values -/

/-- A value read from an answer map: `undefined` (no entry), `null`, a string or an array of
strings. -/
inductive JsVal where
  | undefined
  | null
  | str (s : String)
  | arr (xs : List String)
  deriving DecidableEq, Repr

/-- JavaScript truthiness, `if (userAnswer)`: `undefined`, `null` and `""` are falsy, every
array is truthy. -/
def JsVal.truthy : JsVal → Bool
  | .undefined => false
  | .null => false
  | .str s => s != ""
  | .arr _ => true

/-- The expression `Array.isArray(userAnswer) ? userAnswer : [userAnswer]`, for a truthy value. -/
def JsVal.toArray : JsVal → List String
  | .arr xs => xs
  | .str s => [s]
  | .undefined => []
  | .null => []

/-- The call `correctAnswers.includes(userAnswer)`: strict equality with an element.  An array is
compared by reference and is never an element of a list of strings. -/
def includes (correctAnswers : List String) : JsVal → Bool
  | .str s => decide (s ∈ correctAnswers)
  | _ => false

/-- The UTF-16 code units of a character: one unit below `0x10000`, a surrogate pair above. -/
def unitsOfChar (c : Char) : List Nat :=
  if c.toNat < 65536 then [c.toNat]
  else [55296 + (c.toNat - 65536) / 1024, 56320 + (c.toNat - 65536) % 1024]

/-- The UTF-16 code units of a string, the sequence JavaScript compares strings by. -/
def utf16 (s : String) : List Nat :=
  s.toList.flatMap unitsOfChar

/-- The order of the default comparator of `sort()` on strings: lexicographic on code units. -/
def jsLe (s t : String) : Prop :=
  utf16 s ≤ utf16 t

instance jsLeDecidable : DecidableRel jsLe :=
  fun s t => inferInstanceAs (Decidable (utf16 s ≤ utf16 t))

/-- The call `Array.prototype.sort()` without comparator on an array of strings. -/
def jsSort (xs : List String) : List String :=
  xs.insertionSort jsLe

/-- A JavaScript number: a finite double, given by its exact value (the two zeros are not told
apart), `NaN` or an infinity. -/
inductive JsNum where
  | fin (q : ℚ)
  | nan
  | posInf
  | negInf
  deriving DecidableEq, Repr

/-- The integer nearest to a rational; of two nearest integers, the even one. -/
def roundHalfEven (q : ℚ) : ℤ :=
  if q - ⌊q⌋ < 1 / 2 then ⌊q⌋
  else if 1 / 2 < q - ⌊q⌋ then ⌊q⌋ + 1
  else if ⌊q⌋ % 2 = 0 then ⌊q⌋ else ⌊q⌋ + 1

/-- The distance between the doubles around a positive rational `a`: `2 ^ (e - 52)` where
`2 ^ e ≤ a < 2 ^ (e + 1)`, and `2 ^ (-1074)` for every `a` below `2 ^ (-1022)`. -/
def ulpOf (a : ℚ) : ℚ :=
  (2 : ℚ) ^ (max (Int.log 2 a) (-1022) - 52)

/-- The double that an arithmetic operation returns for the exact result `q` (IEEE 754 binary64,
round to nearest, ties to even): the multiple of `ulpOf |q|` nearest to `q`, and an infinity when
that multiple reaches `2 ^ 1024`. -/
def roundDouble (q : ℚ) : JsNum :=
  if (2 : ℚ) ^ 1024 ≤ (roundHalfEven (|q| / ulpOf |q|) : ℚ) * ulpOf |q| then
    if 0 < q then .posInf else .negInf
  else if 0 ≤ q then .fin ((roundHalfEven (|q| / ulpOf |q|) : ℚ) * ulpOf |q|)
  else .fin (-((roundHalfEven (|q| / ulpOf |q|) : ℚ) * ulpOf |q|))

/-- The division `a / b` of two finite numbers. -/
def jsDiv (a b : ℚ) : JsNum :=
  if b = 0 then
    if a = 0 then .nan else if 0 < a then .posInf else .negInf
  else roundDouble (a / b)

/-- The product `x * 100`. -/
def JsNum.times100 : JsNum → JsNum
  | .fin q => roundDouble (q * 100)
  | .nan => .nan
  | .posInf => .posInf
  | .negInf => .negInf

/-- The comparison `x >= p` with a finite `p`: false for `NaN`. -/
def JsNum.ge (x : JsNum) (p : ℚ) : Bool :=
  match x with
  | .fin q => decide (p ≤ q)
  | .nan => false
  | .posInf => true
  | .negInf => false

/-! ## Ids: the conversion of a route parameter to a number -/

/-- The white space and line terminators that `ToNumber` strips from both ends of a string. -/
def isStrWhiteSpace (c : Char) : Bool :=
  [9, 10, 11, 12, 13, 32, 160, 5760, 8232, 8233, 8239, 8287, 12288, 65279].contains c.toNat ||
    (8192 ≤ c.toNat && c.toNat ≤ 8202)

/-- The value of a character as a digit: `0`-`9`, `a`-`f`, `A`-`F`. -/
def digitOf (c : Char) : Option Nat :=
  if 48 ≤ c.toNat ∧ c.toNat ≤ 57 then some (c.toNat - 48)
  else if 97 ≤ c.toNat ∧ c.toNat ≤ 102 then some (c.toNat - 87)
  else if 65 ≤ c.toNat ∧ c.toNat ≤ 70 then some (c.toNat - 55)
  else none

/-- The number that the digits `cs` denote in `base`, continued from `acc`; `none` when a
character is not a digit of the base. -/
def digitsFrom (base acc : Nat) : List Char → Option Nat
  | [] => some acc
  | c :: cs =>
    match digitOf c with
    | some d => if d < base then digitsFrom base (acc * base + d) cs else none
    | none => none

/-- The number that a non-empty sequence of digits denotes in `base`. -/
def digitsIn (base : Nat) (cs : List Char) : Option Nat :=
  if cs = [] then none else digitsFrom base 0 cs

/-- The exponent of a decimal literal, from what follows its mantissa: nothing, or the letter
`e` or `E`, an optional sign and decimal digits. -/
def exponentOf (rest : List Char) : Option ℤ :=
  match rest with
  | [] => some 0
  | _ :: ds =>
    match ds with
    | '+' :: ns => (digitsIn 10 ns).map (fun n => (n : ℤ))
    | '-' :: ns => (digitsIn 10 ns).map (fun n => -(n : ℤ))
    | _ => (digitsIn 10 ds).map (fun n => (n : ℤ))

/-- The exact value of an unsigned decimal literal: digits with an optional point (digits before
the point or after it) and an optional exponent. -/
def unsignedDecimal (cs : List Char) : Option ℚ :=
  let mantissa := cs.takeWhile (fun c => c != 'e' && c != 'E')
  let rest := cs.dropWhile (fun c => c != 'e' && c != 'E')
  let whole := mantissa.takeWhile (fun c => c != '.')
  let fraction := (mantissa.dropWhile (fun c => c != '.')).drop 1
  if whole = [] ∧ fraction = [] then none
  else
    match digitsFrom 10 0 (whole ++ fraction), exponentOf rest with
    | some m, some e => some ((m : ℚ) * (10 : ℚ) ^ (e - (fraction.length : ℤ)))
    | _, _ => none

/-- The exact value of a decimal literal with its optional sign. -/
def signedDecimal (cs : List Char) : Option ℚ :=
  match cs with
  | '+' :: ds => unsignedDecimal ds
  | '-' :: ds => (unsignedDecimal ds).map (fun q => -q)
  | _ => unsignedDecimal cs

/-- The number of an optional exact value: its double, or `NaN` when there is none. -/
def numberOf (v : Option ℚ) : JsNum :=
  match v with
  | some q => roundDouble q
  | none => .nan

/-- The conversion `ToNumber` of a string: the string is trimmed; the empty string is `0`;
`Infinity` with an optional sign is an infinity; a literal with the marker `0x`, `0o` or `0b` is
read in base 16, 8 or 2; a decimal literal is read with its sign, point and exponent; every other
string is `NaN`. -/
def toNumber (s : String) : JsNum :=
  let cs := ((s.toList.dropWhile isStrWhiteSpace).reverse.dropWhile isStrWhiteSpace).reverse
  if cs = [] then .fin 0
  else if cs = "Infinity".toList ∨ cs = "+Infinity".toList then .posInf
  else if cs = "-Infinity".toList then .negInf
  else
    match cs with
    | '0' :: x :: ds =>
      if x = 'x' ∨ x = 'X' then numberOf ((digitsIn 16 ds).map (fun n => (n : ℚ)))
      else if x = 'o' ∨ x = 'O' then numberOf ((digitsIn 8 ds).map (fun n => (n : ℚ)))
      else if x = 'b' ∨ x = 'B' then numberOf ((digitsIn 2 ds).map (fun n => (n : ℚ)))
      else numberOf (signedDecimal cs)
    | _ => numberOf (signedDecimal cs)

/-- The comparison `n == s` of a numeric `_id` with a string: the string is converted to a
number, and the numbers are compared. -/
def numEqStr (n : Nat) (s : String) : Bool :=
  toNumber s == roundDouble (n : ℚ)

/-- A value stored in the field `exam` of a question: a number or a string. -/
inductive JsId where
  | num (n : Nat)
  | str (s : String)
  deriving DecidableEq, Repr

/-- The comparison `x == s` of a stored id with a string: a number is compared as a number, a
string as a string. -/
def JsId.looseEq : JsId → String → Bool
  | .num n, s => numEqStr n s
  | .str t, s => t == s

/-! ## Questions and exams -/

/-- A stored question (`backend/models/question.js`). -/
structure Question where
  _id : Nat
  exam : Option JsId
  type : String
  correctAnswers : List String
  marks : ℚ
  order : Nat
  deriving DecidableEq, Repr

/-- One entry of `detailedAnswers`. -/
structure DetailedAnswer where
  question : Nat
  answer : JsVal
  isCorrect : Bool
  marksObtained : ℚ
  deriving DecidableEq, Repr

/-- An answer map, a JavaScript object keyed by question id. -/
abbrev AnswerMap := List (Nat × JsVal)

/-- The lookup `answers[question._id]`. -/
def AnswerMap.get (m : AnswerMap) (k : Nat) : JsVal :=
  (m.lookup k).getD .undefined

/-! ## The scoring loop -/

/-- The value of `isCorrect` after the `if (userAnswer) { ... }` block of the loop body
(`submitExam`, lines 254-266; `autoSubmitExam`, lines 476-486).  The two arrays are compared
through `JSON.stringify`, which is injective on arrays of strings. -/
def isCorrectOf (q : Question) (userAnswer : JsVal) : Bool :=
  if userAnswer.truthy then
    if q.type = "mcq" then
      includes q.correctAnswers userAnswer
    else if q.type = "checkbox" then
      decide (jsSort userAnswer.toArray = jsSort q.correctAnswers)
    else
      false
  else
    false

/-- The value of `marksObtained` at the end of the loop body. -/
def marksObtainedOf (q : Question) (userAnswer : JsVal) : ℚ :=
  if userAnswer.truthy then
    (if isCorrectOf q userAnswer then q.marks else 0)
  else 0

/-- The value stored as `answer`: the submitted value; an array submitted to a checkbox question
has been sorted in place by `userAnswersArray.sort()`. -/
def storedAnswer (q : Question) (userAnswer : JsVal) : JsVal :=
  match userAnswer with
  | .arr xs => if q.type = "checkbox" then .arr (jsSort xs) else .arr xs
  | v => v

/-- The entry pushed on `detailedAnswers` for one question. -/
def scoreQuestion (q : Question) (userAnswer : JsVal) : DetailedAnswer :=
  { question := q._id
    answer := storedAnswer q userAnswer
    isCorrect := isCorrectOf q userAnswer
    marksObtained := marksObtainedOf q userAnswer }

/-- One iteration of `questions.forEach`, on the pair `(totalMarksObtained, detailedAnswers)`;
`lookup` is the expression that reads the user's answer to a question. -/
def scoreStep (lookup : Nat → JsVal) (acc : ℚ × List DetailedAnswer) (q : Question) :
    ℚ × List DetailedAnswer :=
  let userAnswer := lookup q._id
  let d := scoreQuestion q userAnswer
  (if userAnswer.truthy then acc.1 + d.marksObtained else acc.1, acc.2 ++ [d])

/-- The whole loop, from `totalMarksObtained = 0` and `detailedAnswers = []`. -/
def scoreLoop (lookup : Nat → JsVal) (questions : List Question) : ℚ × List DetailedAnswer :=
  questions.foldl (scoreStep lookup) (0, [])

/-- The scoring loop of `submitExam`: `userAnswer = answers[question._id]`. -/
def submitScore (questions : List Question) (answers : AnswerMap) : ℚ × List DetailedAnswer :=
  scoreLoop answers.get questions

/-- The scoring loop of `autoSubmitExam`:
`userAnswer = userAnswers ? userAnswers[question._id] : null`. -/
def autoSubmitScore (questions : List Question) (userAnswers : Option AnswerMap) :
    ℚ × List DetailedAnswer :=
  scoreLoop (fun k => match userAnswers with
    | some m => m.get k
    | none => .null) questions

/-- The expression `(totalMarksObtained / exam.totalMarks) * 100`. -/
def percentageOf (totalMarksObtained totalMarks : ℚ) : JsNum :=
  (jsDiv totalMarksObtained totalMarks).times100

/-- The `results` object of the reply of `submitExam` and `autoSubmitExam`. -/
structure ScoreSummary where
  score : JsNum
  totalMarks : ℚ
  obtainedMarks : ℚ
  passingMarks : ℚ
  passed : Bool
  timeTaken : Int
  submittedAt : Option Int
  deriving DecidableEq, Repr

/-! ## Exams (`backend/models/exam.js`) -/

/-- The fields of a stored exam that the attempt lifecycle reads. -/
structure Exam where
  _id : Nat
  duration : Nat
  totalMarks : ℚ
  passingMarks : ℚ
  status : String
  startDate : Int
  endDate : Int
  questions : List Nat
  allowedUsers : List Nat
  maxAttempts : Nat
  deriving DecidableEq, Repr

/-- The argument `data` of `new Exam(data)`; `none` is a missing field. -/
structure ExamData where
  duration : Option Nat
  totalMarks : Option ℚ
  passingMarks : Option ℚ
  status : Option String
  startDate : Option Int
  endDate : Option Int
  questions : Option (List Nat)
  allowedUsers : Option (List Nat)
  maxAttempts : Option Nat
  deriving DecidableEq, Repr

/-- The expression `x || d` for an optional natural number (`0` is falsy). -/
def natOr (x : Option Nat) (d : Nat) : Nat :=
  match x with
  | some n => if n = 0 then d else n
  | none => d

/-- The expression `x || d` for an optional rational number (`0` is falsy). -/
def ratOr (x : Option ℚ) (d : ℚ) : ℚ :=
  match x with
  | some q => if q = 0 then d else q
  | none => d

/-- The expression `x || d` for an optional string (`""` is falsy). -/
def strOr (x : Option String) (d : String) : String :=
  match x with
  | some s => if s = "" then d else s
  | none => d

/-- The constructor of `Exam`, with the value `id` of the counter `examId` and the time `now`. -/
def Exam.new (id : Nat) (now : Int) (data : ExamData) : Exam :=
  { _id := id
    duration := natOr data.duration 30
    totalMarks := ratOr data.totalMarks 100
    passingMarks := ratOr data.passingMarks 40
    status := strOr data.status "draft"
    startDate := data.startDate.getD now
    endDate := data.endDate.getD (now + 30 * 24 * 60 * 60 * 1000)
    questions := data.questions.getD []
    allowedUsers := data.allowedUsers.getD []
    maxAttempts := natOr data.maxAttempts 1 }

/-- The array `exams` after `Exam.create` has been called on each `(now, data)` in turn, the
counter `examId` starting at `id`. -/
def Exam.createFrom (id : Nat) : List (Int × ExamData) → List Exam
  | [] => []
  | (now, data) :: rest => Exam.new id now data :: Exam.createFrom (id + 1) rest

/-- The array `exams` of a module whose counter starts at `1`. -/
def Exam.createAll (ds : List (Int × ExamData)) : List Exam :=
  Exam.createFrom 1 ds

/-- The lookup `Exam.findById(id)`: the first exam with `e._id == id`. -/
def Exam.findById (exams : List Exam) (id : String) : Option Exam :=
  exams.find? (fun e => numEqStr e._id id)

/-- The lookup `Exam.findOne({ _id: id, status, startDate, endDate })`: when `query._id` is truthy,
the first exam with `e._id == query._id`; the in-memory `findOne` reads no other field of this
query.  With a falsy `_id` it goes on to `query.title`, which the query does not have, and
returns `null`. -/
def Exam.findOne (exams : List Exam) (id : String) : Option Exam :=
  if id = "" then none else Exam.findById exams id

/-- The lookup `Question.find({ exam: examId })`: with a truthy `examId`, the questions with
`q.exam == examId`; the result is sorted by `order` (a stable sort). -/
def Question.find (questions : List Question) (examId : String) : List Question :=
  (if examId = "" then questions
    else questions.filter (fun q =>
      match q.exam with
      | some x => x.looseEq examId
      | none => false)).insertionSort
    (fun a b => a.order ≤ b.order)

/-- The exam catalog: the arrays `exams` and `questions`. -/
structure Catalog where
  exams : List Exam
  questions : List Question
  deriving Repr

/-! ## Attempts (`backend/models/result.js`) -/

/-- The draft snapshot `progress`; `none` is a missing property. -/
structure Progress where
  currentQuestion : Option Nat
  userAnswers : Option AnswerMap
  markedQuestions : Option (List Nat)
  timeRemaining : Option Nat
  deriving DecidableEq, Repr

/-- A stored attempt. -/
structure Result where
  _id : Nat
  user : Option Nat
  exam : Option String
  answers : List DetailedAnswer
  totalMarksObtained : ℚ
  percentage : JsNum
  status : String
  startedAt : Int
  submittedAt : Option Int
  timeTaken : Int
  progress : Option Progress
  createdAt : Int
  deriving DecidableEq, Repr

/-- The argument `data` of `new Result(data)`, with the fields the controllers pass. -/
structure ResultData where
  user : Nat
  exam : String
  status : Option String
  startedAt : Option Int
  progress : Option Progress
  deriving DecidableEq, Repr

/-- The constructor of `Result`, with the value `id` of the counter `resultId`. -/
def Result.new (id : Nat) (now : Int) (data : ResultData) : Result :=
  { _id := id
    user := if data.user = 0 then none else some data.user
    exam := if data.exam = "" then none else some data.exam
    answers := []
    totalMarksObtained := 0
    percentage := .fin 0
    status := strOr data.status "in_progress"
    startedAt := data.startedAt.getD now
    submittedAt := none
    timeTaken := 0
    progress := some (data.progress.getD
      { currentQuestion := some 0
        userAnswers := some []
        markedQuestions := some []
        timeRemaining := some 0 })
    createdAt := now }

/-- The attempt store: the array `results` and the counter `resultId`. -/
structure Store where
  results : List Result
  resultId : Nat
  deriving DecidableEq, Repr

/-- The store of a freshly loaded module. -/
def Store.empty : Store :=
  { results := [], resultId := 1 }

/-- The call `Result.create(data)`. -/
def Result.create (st : Store) (now : Int) (data : ResultData) : Result × Store :=
  let r := Result.new st.resultId now data
  (r, { results := st.results ++ [r], resultId := st.resultId + 1 })

/-- The `status` field of a query. -/
inductive StatusQuery where
  | absent
  | is (s : String)
  | among (ss : List String)
  deriving DecidableEq, Repr

/-- A query `{ user, exam, status }` on the attempt store. -/
structure ResultQuery where
  user : Nat
  exam : String
  status : StatusQuery
  deriving DecidableEq, Repr

/-- The test `query.user && r.user != query.user` is false. -/
def userMatches (r : Result) (user : Nat) : Bool :=
  user == 0 || r.user == some user

/-- The test `query.exam && r.exam != query.exam` is false: the empty string is falsy, and two
strings are compared as they are. -/
def examMatches (r : Result) (exam : String) : Bool :=
  exam == "" || r.exam == some exam

/-- The predicate of `Result.findOne`.  The status test is
`query.status && !query.status.$in?.includes(r.status)`: a status given as a plain non-empty
string has no property `$in`, the optional call yields `undefined` and the record is rejected. -/
def findOneMatches (q : ResultQuery) (r : Result) : Bool :=
  userMatches r q.user && examMatches r q.exam &&
    (match q.status with
     | .absent => true
     | .is s => s == ""
     | .among ss => ss.contains r.status)

/-- The call `Result.findOne(query)`. -/
def Result.findOne (st : Store) (q : ResultQuery) : Option Result :=
  st.results.find? (findOneMatches q)

/-- The predicate of `Result.countDocuments`.  The status test is
`query.status && r.status !== query.status`. -/
def countMatches (q : ResultQuery) (r : Result) : Bool :=
  userMatches r q.user && examMatches r q.exam &&
    (match q.status with
     | .absent => true
     | .is s => s == "" || r.status == s
     | .among _ => false)

/-- The call `Result.countDocuments(query)`. -/
def Result.countDocuments (st : Store) (q : ResultQuery) : Nat :=
  (st.results.filter (countMatches q)).length

/-- The first record that satisfies `p` is replaced by `f` of it: the mutation of the object that
`find` returned, followed by `save()`. -/
def updateFirst (p : Result → Bool) (f : Result → Result) : List Result → List Result
  | [] => []
  | r :: rs => if p r then f r :: rs else r :: updateFirst p f rs

/-- The method `save()`: the record replaces the first stored record with its `_id`, and is
pushed when there is none. -/
def Result.save (results : List Result) (this : Result) : List Result :=
  if results.any (fun r => r._id == this._id) then
    updateFirst (fun r => r._id == this._id) (fun _ => this) results
  else results ++ [this]

/-- The record that `Result.findOne(query)` returned is mutated by `f` and saved.  The object is
the one held by the array `results`, so the mutation alone changes the store; `save()` then finds
the object at its own index and writes it back there (`save_found_record` below). -/
def Store.update (st : Store) (q : ResultQuery) (f : Result → Result) : Store :=
  { st with results := updateFirst (findOneMatches q) f st.results }

/-- The query for an open attempt, `status: { $in: ['in_progress', 'submitted'] }`. -/
def openQuery (user : Nat) (exam : String) : ResultQuery :=
  { user := user, exam := exam, status := .among ["in_progress", "submitted"] }

/-- The assignment `userAnswers[questionId] = answer` on an answer map. -/
def AnswerMap.set (m : AnswerMap) (k : Nat) (v : JsVal) : AnswerMap :=
  if m.any (fun p => p.1 == k) then m.map (fun p => if p.1 = k then (k, v) else p)
  else m ++ [(k, v)]

/-- The statement `delete userAnswers[questionId]`. -/
def AnswerMap.delete (m : AnswerMap) (k : Nat) : AnswerMap :=
  m.filter (fun p => p.1 != k)

/-- The fields that finalization writes on an attempt. -/
structure FinalFields where
  answers : List DetailedAnswer
  totalMarksObtained : ℚ
  percentage : JsNum
  submittedAt : Int
  timeTaken : Int
  deriving DecidableEq, Repr

/-- The finalization of an attempt: `answers`, `totalMarksObtained`, `percentage`,
`status = 'completed'`, `submittedAt`, `timeTaken` are written and `progress` is set to `null`
(`autoSubmitExam`, lines 504-510). -/
def Result.finalize (r : Result) (u : FinalFields) : Result :=
  { r with
    answers := u.answers
    totalMarksObtained := u.totalMarksObtained
    percentage := u.percentage
    status := "completed"
    submittedAt := some u.submittedAt
    timeTaken := u.timeTaken
    progress := none }

/-! ## The lifecycle handlers -/

/-- The reply of a handler: the status code and the part of the body that depends on the
request. -/
inductive Reply where
  | notFound (message : String)
  | forbidden (message : String)
  | resumed (resultId : Nat) (status : String) (progress : Option Progress)
  | started (resultId : Nat) (timeRemaining : Nat)
  | success (message : String)
  | marked (marked : Bool)
  | results (summary : ScoreSummary)
  | serverError (message : String)
  deriving DecidableEq, Repr

/-- The handler `startExam` (`examcontroller.js`, lines 112-190). -/
def startExam (cat : Catalog) (st : Store) (userId : Nat) (examId : String) (now : Int) :
    Reply × Store :=
  match Exam.findOne cat.exams examId with
  | none => (.notFound "Exam not found or not active", st)
  | some exam =>
    let attempts := Result.countDocuments st
      { user := userId, exam := examId, status := .is "completed" }
    if attempts ≥ exam.maxAttempts then
      (.forbidden "Maximum attempts reached for this exam", st)
    else
      match Result.findOne st (openQuery userId examId) with
      | some existingResult =>
        (.resumed existingResult._id existingResult.status existingResult.progress, st)
      | none =>
        let created := Result.create st now
          { user := userId, exam := examId, status := some "in_progress", startedAt := some now,
            progress := some
              { currentQuestion := some 0
                userAnswers := some []
                markedQuestions := none
                timeRemaining := some (exam.duration * 60) } }
        (.started created.1._id (exam.duration * 60), created.2)

/-- The handler `saveExamProgress` (`dashboardcontroller.js`, lines 155-197). -/
def saveExamProgress (st : Store) (userId : Nat) (examId : String)
    (currentQuestion : Option Nat)
    (userAnswers : Option AnswerMap) (timeRemaining : Option Nat) (now : Int) : Reply × Store :=
  let progress : Progress :=
    { currentQuestion := currentQuestion
      userAnswers := userAnswers
      markedQuestions := none
      timeRemaining := timeRemaining }
  match Result.findOne st (openQuery userId examId) with
  | some _ =>
    (.success "Progress saved successfully",
      st.update (openQuery userId examId) (fun r => { r with progress := some progress }))
  | none =>
    let created := Result.create st now
      { user := userId, exam := examId, status := some "in_progress", startedAt := none,
        progress := none }
    (.success "Progress saved successfully",
      { results := st.results ++ [{ created.1 with progress := some progress }]
        resultId := created.2.resultId })

/-- The statements `progress.userAnswers = progress.userAnswers || {}` and
`progress.userAnswers[questionId] = answer` of `saveAnswer`. -/
def Progress.setAnswer (p : Progress) (questionId : Nat) (answer : JsVal) : Progress :=
  { p with userAnswers := some ((p.userAnswers.getD []).set questionId answer) }

/-- The handler `saveAnswer` (`examcontroller.js`, lines 243-281).  Reading a property of a
`null` progress throws, which ends in the `catch` branch. -/
def saveAnswer (st : Store) (userId : Nat) (examId : String) (questionId : Nat) (answer : JsVal) :
    Reply × Store :=
  match Result.findOne st (openQuery userId examId) with
  | none => (.notFound "No active exam session found", st)
  | some result =>
    match result.progress with
    | none => (.serverError "Error saving answer", st)
    | some _ =>
      (.success "Answer saved successfully",
        st.update (openQuery userId examId) (fun r =>
          { r with progress := r.progress.map (fun p => p.setAnswer questionId answer) }))

/-- The statements of `markQuestion` on the marked list: `indexOf`, then `push` or `splice`.
The flag is `index === -1`. -/
def toggleMark (marked : List Nat) (questionId : Nat) : List Nat × Bool :=
  if questionId ∈ marked then (marked.erase questionId, false)
  else (marked ++ [questionId], true)

/-- The marked list of a progress after `markQuestion`: a missing list is first set to `[]`. -/
def Progress.toggle (p : Progress) (questionId : Nat) : Progress :=
  { p with markedQuestions := some (toggleMark (p.markedQuestions.getD []) questionId).1 }

/-- The handler `markQuestion` (`examcontroller.js`, lines 284-330). -/
def markQuestion (st : Store) (userId : Nat) (examId : String) (questionId : Nat) :
    Reply × Store :=
  match Result.findOne st (openQuery userId examId) with
  | none => (.notFound "No active exam session found", st)
  | some result =>
    match result.progress with
    | none => (.serverError "Error marking question", st)
    | some progress =>
      (.marked (toggleMark (progress.markedQuestions.getD []) questionId).2,
        st.update (openQuery userId examId) (fun r =>
          { r with progress := r.progress.map (fun p => p.toggle questionId) }))

/-- The statement `delete progress.userAnswers[questionId]` of `clearAnswer`. -/
def Progress.clear (p : Progress) (questionId : Nat) : Progress :=
  { p with userAnswers := p.userAnswers.map (fun m => m.delete questionId) }

/-- The handler `clearAnswer` (`examcontroller.js`, lines 333-369). -/
def clearAnswer (st : Store) (userId : Nat) (examId : String) (questionId : Nat) :
    Reply × Store :=
  match Result.findOne st (openQuery userId examId) with
  | none => (.notFound "No active exam session found", st)
  | some result =>
    match result.progress with
    | none => (.serverError "Error clearing answer", st)
    | some progress =>
      match progress.userAnswers with
      | none => (.success "Answer cleared successfully", st)
      | some userAnswers =>
        if (userAnswers.get questionId).truthy then
          (.success "Answer cleared successfully",
            st.update (openQuery userId examId) (fun r =>
              { r with progress := r.progress.map (fun p => p.clear questionId) }))
        else (.success "Answer cleared successfully", st)

/-- The summary that the statements of `submitExam` after the lookup of the exam compute from
the exam, its question list and the submitted answers (lines 249-281 and 303-311),
`submittedAt` apart. -/
def submitSummary (exam : Exam) (questions : List Question) (answers : AnswerMap)
    (timeTaken : Int) (submittedAt : Option Int) : ScoreSummary :=
  let totalMarksObtained := (submitScore questions answers).1
  let percentage := percentageOf totalMarksObtained exam.totalMarks
  { score := percentage
    totalMarks := exam.totalMarks
    obtainedMarks := totalMarksObtained
    passingMarks := exam.passingMarks
    passed := percentage.ge exam.passingMarks
    timeTaken := timeTaken
    submittedAt := submittedAt }

/-- The handler `submitExam` (`dashboardcontroller.js`, lines 233-321).  Its first statement
after the request is read is `await Exam.findById(examId).populate('questions')`:
`Exam.findById` is an `async` function, its result is a promise, and a promise has no method
`populate`, so the call throws a `TypeError` inside the `try` block.  The `catch` block replies
500 with `Error submitting exam`.  No statement before the call reads or writes the attempt
store, so the handler replies so on every request and leaves the store as it is. -/
def submitExam (_cat : Catalog) (st : Store) (_userId : Nat) (_examId : String)
    (_answers : AnswerMap) (_timeTaken : Int) (_now : Int) : Reply × Store :=
  (.serverError "Error submitting exam", st)

/-- The handler `autoSubmitExam` (`examcontroller.js`, lines 432-534).  The loop body reads
`result.progress.userAnswers`, which throws on a `null` progress when there is a question. -/
def autoSubmitExam (cat : Catalog) (st : Store) (userId : Nat) (examId : String) (now : Int) :
    Reply × Store :=
  let query : ResultQuery := { user := userId, exam := examId, status := .is "in_progress" }
  match Result.findOne st query with
  | none => (.notFound "No active exam session found", st)
  | some result =>
    match Exam.findById cat.exams examId with
    | none => (.notFound "Exam not found", st)
    | some exam =>
      let timeTaken :=
        if result.timeTaken ≠ 0 then result.timeTaken
        else Int.fdiv (now - result.startedAt) 1000
      let questions := Question.find cat.questions examId
      if result.progress.isNone && !questions.isEmpty then
        (.serverError "Error auto-submitting exam", st)
      else
        let scored := autoSubmitScore questions (result.progress.bind (fun p => p.userAnswers))
        let percentage := percentageOf scored.1 exam.totalMarks
        (.results
          { score := percentage
            totalMarks := exam.totalMarks
            obtainedMarks := scored.1
            passingMarks := exam.passingMarks
            passed := percentage.ge exam.passingMarks
            timeTaken := timeTaken
            submittedAt := some now },
          st.update query (fun r => r.finalize
            { answers := scored.2
              totalMarksObtained := scored.1
              percentage := percentage
              submittedAt := now
              timeTaken := timeTaken }))

/-! ## The lifecycle as a transition system -/

/-- A request to one of the lifecycle handlers. -/
inductive Op where
  | startExam (userId : Nat) (examId : String) (now : Int)
  | saveExamProgress (userId : Nat) (examId : String) (currentQuestion : Option Nat)
      (userAnswers : Option AnswerMap) (timeRemaining : Option Nat) (now : Int)
  | saveAnswer (userId : Nat) (examId : String) (questionId : Nat) (answer : JsVal)
  | markQuestion (userId : Nat) (examId : String) (questionId : Nat)
  | clearAnswer (userId : Nat) (examId : String) (questionId : Nat)
  | submitExam (userId : Nat) (examId : String) (answers : AnswerMap) (timeTaken : Int)
      (now : Int)
  | autoSubmitExam (userId : Nat) (examId : String) (now : Int)
  deriving Repr

/-- The handler that serves a request. -/
def handle (cat : Catalog) (st : Store) : Op → Reply × Store
  | .startExam u e now => startExam cat st u e now
  | .saveExamProgress u e c a t now => saveExamProgress st u e c a t now
  | .saveAnswer u e q a => saveAnswer st u e q a
  | .markQuestion u e q => markQuestion st u e q
  | .clearAnswer u e q => clearAnswer st u e q
  | .submitExam u e a t now => submitExam cat st u e a t now
  | .autoSubmitExam u e now => autoSubmitExam cat st u e now

/-- The store after a sequence of requests, served one after the other. -/
def run (cat : Catalog) (st : Store) : List Op → Store
  | [] => st
  | op :: ops => run cat (handle cat st op).2 ops

/-- The stores reachable from the empty store by lifecycle requests. -/
inductive Reachable (cat : Catalog) : Store → Prop where
  | empty : Reachable cat Store.empty
  | step {st : Store} (op : Op) : Reachable cat st → Reachable cat (handle cat st op).2

/-- The status of an open attempt: `in_progress` or `submitted`. -/
def Result.isOpen (r : Result) : Bool :=
  r.status == "in_progress" || r.status == "submitted"

/-- The attempts of a `(user, exam)` pair, as stored in the fields `user` and `exam`. -/
def attemptsOf (st : Store) (user : Option Nat) (exam : Option String) : List Result :=
  st.results.filter (fun r => r.user == user && r.exam == exam)

/-! ## Invariants of the attempt store -/

/-- The effects that a lifecycle handler has on the attempt store: none; a change of the draft
of the record a query selects; the creation of an open attempt when the open-attempt query
selects nothing. -/
inductive Effect (st : Store) : Store → Prop where
  | none : Effect st st
  | draft (q : ResultQuery) (f : Result → Result) (hid : ∀ r, (f r)._id = r._id)
      (huser : ∀ r, (f r).user = r.user) (hexam : ∀ r, (f r).exam = r.exam)
      (hstatus : ∀ r, (f r).status = r.status) :
      Effect st (st.update q f)
  | create (userId : Nat) (examId : String) (r : Result) (hid : r._id = st.resultId)
      (hnone : Result.findOne st (openQuery userId examId) = none)
      (huser : r.user = if userId = 0 then none else some userId)
      (hexam : r.exam = if examId = "" then none else some examId)
      (hstatus : r.status = "in_progress") :
      Effect st { results := st.results ++ [r], resultId := st.resultId + 1 }

/-- No two stored attempts with the same stored user and the same stored exam id are both
open. -/
def OpenUnique (st : Store) : Prop :=
  st.results.Pairwise (fun a b =>
    ¬ (a.isOpen = true ∧ b.isOpen = true ∧ a.user = b.user ∧ a.exam = b.exam))

/-- Every stored `_id` is below the counter `resultId`, and no two records share one. -/
def IdsFresh (st : Store) : Prop :=
  (∀ r ∈ st.results, r._id < st.resultId) ∧ st.results.Pairwise (fun a b => a._id ≠ b._id)

/-- Every stored attempt has the status `in_progress`. -/
def AllInProgress (st : Store) : Prop :=
  ∀ r ∈ st.results, r.status = "in_progress"

/-- The stored exam id of the record names the exam: it is a string that `==` equates with the
`_id` of the exam. -/
def Result.namesExam (r : Result) (exam : Exam) : Bool :=
  match r.exam with
  | some s => numEqStr exam._id s
  | none => false

/-- The attempts of a user for an exam, under every spelling of the id of the exam. -/
def attemptsFor (st : Store) (user : Option Nat) (exam : Exam) : List Result :=
  st.results.filter (fun r => r.user == user && r.namesExam exam)

/-- The open attempts of a `(user, exam)` pair. -/
def openAttempts (st : Store) (user : Option Nat) (exam : Option String) : List Result :=
  (attemptsOf st user exam).filter Result.isOpen

/-- The completed attempts of a `(user, exam)` pair. -/
def completedAttempts (st : Store) (user : Option Nat) (exam : Option String) : List Result :=
  (attemptsOf st user exam).filter (fun r => r.status == "completed")

/-- The value `data.user || null` that the constructor stores for a user id: the id itself, or
`null` for the falsy id `0`. -/
def storedUser (userId : Nat) : Option Nat :=
  if userId = 0 then none else some userId

/-- The value `data.exam || null` that the constructor stores for an exam id: the string itself,
or `null` for the empty string. -/
def storedExam (examId : String) : Option String :=
  if examId = "" then none else some examId

/-- The field `resultId` of the reply of `startExam`, when the reply has one. -/
def Reply.resultId? : Reply → Option Nat
  | .resumed resultId _ _ => some resultId
  | .started resultId _ => some resultId
  | _ => none

/-- The scoring fields of an attempt: `answers`, `totalMarksObtained` and `percentage`. -/
def Result.scoring (r : Result) : List DetailedAnswer × ℚ × JsNum :=
  (r.answers, r.totalMarksObtained, r.percentage)

/-! ## The scoring loop of `autoSubmitExam`, statement by statement

`autoSubmitScore` above shares the loop body of `submitExam`.  The definitions here follow the
text of `autoSubmitExam` (lines 468-498) on its own, with its local variables, so that the two
loops can be compared. -/

/-- The body of `questions.forEach` in `autoSubmitExam`: `isCorrect` and `marksObtained` start at
`false` and `0`; the block `if (userAnswer)` has a branch for `mcq` and one for `checkbox` and no
final `else`.  The result is the new total and the entry pushed on `detailedAnswers`. -/
def autoSubmitBody (userAnswers : Option AnswerMap) (totalMarksObtained : ℚ) (q : Question) :
    ℚ × DetailedAnswer :=
  let userAnswer : JsVal :=
    match userAnswers with
    | some m => m.get q._id
    | none => .null
  let isCorrect₀ := false
  let marksObtained₀ : ℚ := 0
  if userAnswer.truthy then
    let isCorrect₁ :=
      if q.type = "mcq" then includes q.correctAnswers userAnswer
      else if q.type = "checkbox" then
        decide (jsSort userAnswer.toArray = jsSort q.correctAnswers)
      else isCorrect₀
    let marksObtained₁ := if isCorrect₁ then q.marks else 0
    (totalMarksObtained + marksObtained₁,
      { question := q._id, answer := storedAnswer q userAnswer, isCorrect := isCorrect₁,
        marksObtained := marksObtained₁ })
  else
    (totalMarksObtained,
      { question := q._id, answer := userAnswer, isCorrect := isCorrect₀,
        marksObtained := marksObtained₀ })

/-- The loop of `autoSubmitExam` over the questions, from the total `total` and the detailed
answers `detailed`. -/
def autoSubmitLoopFrom (userAnswers : Option AnswerMap) (total : ℚ)
    (detailed : List DetailedAnswer) : List Question → ℚ × List DetailedAnswer
  | [] => (total, detailed)
  | q :: qs =>
    autoSubmitLoopFrom userAnswers (autoSubmitBody userAnswers total q).1
      (detailed ++ [(autoSubmitBody userAnswers total q).2]) qs

/-- The loop of `autoSubmitExam`, from `totalMarksObtained = 0` and `detailedAnswers = []`. -/
def autoSubmitLoop (questions : List Question) (userAnswers : Option AnswerMap) :
    ℚ × List DetailedAnswer :=
  autoSubmitLoopFrom userAnswers 0 [] questions

/-! ## The statistics of `getExamResults` -/

/-- The object `statistics` of `getExamResults` (`examcontroller.js`, lines 594-599). -/
structure Statistics where
  totalQuestions : Nat
  correctAnswers : Nat
  incorrectAnswers : Nat
  unattempted : Nat
  deriving DecidableEq, Repr

/-- The filter `a => a.isCorrect`. -/
def countsCorrect (a : DetailedAnswer) : Bool :=
  a.isCorrect

/-- The filter `a => !a.isCorrect && a.answer`. -/
def countsIncorrect (a : DetailedAnswer) : Bool :=
  !a.isCorrect && a.answer.truthy

/-- The filter `a => !a.answer`. -/
def countsUnattempted (a : DetailedAnswer) : Bool :=
  !a.answer.truthy

/-- The statistics that `getExamResults` computes from the stored answers. -/
def statistics (answers : List DetailedAnswer) : Statistics :=
  { totalQuestions := answers.length
    correctAnswers := (answers.filter countsCorrect).length
    incorrectAnswers := (answers.filter countsIncorrect).length
    unattempted := (answers.filter countsUnattempted).length }

/-! ## The draft of the selected attempt -/

/-- The marked-for-review list of a record: `progress.markedQuestions`, or `[]` when the progress
or the list is missing. -/
def Result.marked (r : Result) : List Nat :=
  (r.progress.bind (fun p => p.markedQuestions)).getD []

/-- The marked-for-review list of the open attempt that the handlers select for a user and an
exam (`[]` when there is none). -/
def markedOf (st : Store) (userId : Nat) (examId : String) : List Nat :=
  match Result.findOne st (openQuery userId examId) with
  | some r => r.marked
  | none => []

/-- The draft answer map of the open attempt that the handlers select for a user and an exam. -/
def draftAnswersOf (st : Store) (userId : Nat) (examId : String) : Option AnswerMap :=
  (Result.findOne st (openQuery userId examId)).bind
    (fun r => r.progress.bind (fun p => p.userAnswers))

/-- The draft of a record is well formed: an open attempt has a progress object, and the marked
list holds no question twice. -/
def Result.draftOk (r : Result) : Prop :=
  (r.isOpen = true → r.progress.isSome = true) ∧ r.marked.Nodup

/-- Every stored record has a well-formed draft. -/
def DraftOk (st : Store) : Prop :=
  ∀ r ∈ st.results, r.draftOk

/-! ## The scenario of the specification

An exam with two questions, a single-choice question worth 1 mark and a multi-select question
worth 2 marks with correct answers `A` and `B`; `totalMarks = 3`, `passingMarks = 50`. -/

/-- The single-choice question of the scenario. -/
def scenarioMcq : Question :=
  { _id := 1, exam := some (.num 1), type := "mcq", correctAnswers := ["A"], marks := 1,
    order := 0 }

/-- The multi-select question of the scenario. -/
def scenarioCheckbox : Question :=
  { _id := 2, exam := some (.num 1), type := "checkbox", correctAnswers := ["A", "B"], marks := 2,
    order := 1 }

/-- The data from which the exam of the scenario is created. -/
def scenarioExamData : ExamData :=
  { duration := none, totalMarks := some 3, passingMarks := some 50, status := some "active",
    startDate := none, endDate := none, questions := some [1, 2], allowedUsers := none,
    maxAttempts := none }

/-- The exam of the scenario. -/
def scenarioExam : Exam :=
  Exam.new 1 0 scenarioExamData

/-- The catalog of the scenario. -/
def scenarioCatalog : Catalog :=
  { exams := Exam.createAll [(0, scenarioExamData)]
    questions := [scenarioMcq, scenarioCheckbox] }

/-- The fully correct answer map of the scenario, `{q1: "A", q2: ["B", "A"]}`. -/
def scenarioAnswers : AnswerMap :=
  [(1, .str "A"), (2, .arr ["B", "A"])]

/-- A run of user `7` on the exam of the scenario: start, answer, mark, submit, then a progress
save and a second submit. -/
def scenarioOps : List Op :=
  [.startExam 7 "1" 1000, .saveAnswer 7 "1" 1 (.str "A"), .markQuestion 7 "1" 2,
    .submitExam 7 "1" scenarioAnswers 30 9000,
    .saveExamProgress 7 "1" (some 1) none (some 60) 9500, .submitExam 7 "1" [] 45 9900]

/-- The data of an exam that is left in the default status `draft` and whose window, from `5000`
to `6000`, is over at the time `9000`. -/
def draftExamData : ExamData :=
  { scenarioExamData with status := none, startDate := some 5000, endDate := some 6000 }

/-- A catalog whose only exam is the draft exam. -/
def draftCatalog : Catalog :=
  { exams := Exam.createAll [(0, draftExamData)]
    questions := [scenarioMcq, scenarioCheckbox] }

/-- The data of an active exam restricted to the user `5`. -/
def restrictedExamData : ExamData :=
  { scenarioExamData with allowedUsers := some [5] }

/-- A catalog whose only exam is the restricted exam. -/
def restrictedCatalog : Catalog :=
  { exams := Exam.createAll [(0, restrictedExamData)]
    questions := [scenarioMcq, scenarioCheckbox] }

/-- The store of the scenario after user `7` has started the exam. -/
def scenarioStarted : Store :=
  run scenarioCatalog Store.empty [.startExam 7 "1" 1000]

/-- The store of the scenario after user `7` has started the exam and marked question `2`. -/
def scenarioMarked : Store :=
  run scenarioCatalog Store.empty [.startExam 7 "1" 1000, .markQuestion 7 "1" 2]

/-- The store of the scenario after user `7` has started the exam and saved the empty string as
the answer to question `1`. -/
def scenarioEmptyAnswer : Store :=
  run scenarioCatalog Store.empty [.startExam 7 "1" 1000, .saveAnswer 7 "1" 1 (.str "")]

/-- Two requests of user `7` to start the exam `1` of the scenario, the second with the id
spelled `01`. -/
def respelledOps : List Op :=
  [.startExam 7 "1" 1000, .startExam 7 "01" 2000]

/-- A store that holds one attempt of user `7` under the exam id `1` with status `completed`, as
the call `Result.create({ user: 7, exam: '1', status: 'completed' })` stores it. -/
def completedStore : Store :=
  (Result.create Store.empty 1000
    { user := 7, exam := "1", status := some "completed", startedAt := none,
      progress := none }).2

/-- The attempt that `completedStore` holds. -/
def completedAttempt : Result :=
  Result.new 1 1000
    { user := 7, exam := "1", status := some "completed", startedAt := none, progress := none }

/-- The data of an exam with `totalMarks = 100` and the pass mark `57`. -/
def passMarkExamData : ExamData :=
  { scenarioExamData with totalMarks := some 100, passingMarks := some 57 }

/-- A single-choice question worth `57` marks. -/
def passMarkQuestion : Question :=
  { scenarioMcq with marks := 57 }

/-- The data of the exam of the scenario, submitted with `totalMarks = 0`. -/
def zeroTotalExamData : ExamData :=
  { scenarioExamData with totalMarks := some 0 }

/-! ## Properties of the JavaScript primitives -/

theorem char_toNat_valid (c : Char) :
    c.toNat < 55296 ∨ (57343 < c.toNat ∧ c.toNat < 1114112) := by
  have h := c.valid
  simpa [UInt32.isValidChar, Nat.isValidChar, Char.toNat] using h

theorem char_toNat_inj {c d : Char} (h : c.toNat = d.toNat) : c = d := by
  apply Char.ext
  apply UInt32.ext
  simpa [Char.toNat, UInt32.toNat] using h

/-- Two sequences of characters with the same code units are equal: a surrogate pair is never
mistaken for a character of the basic plane. -/
theorem flatMap_unitsOfChar_inj : ∀ (l₁ l₂ : List Char),
    l₁.flatMap unitsOfChar = l₂.flatMap unitsOfChar → l₁ = l₂
  | [], [] => fun _ => rfl
  | [], d :: l₂ => by
    intro h
    simp only [List.flatMap_nil, List.flatMap_cons, unitsOfChar] at h
    split at h <;> simp at h
  | c :: l₁, [] => by
    intro h
    simp only [List.flatMap_nil, List.flatMap_cons, unitsOfChar] at h
    split at h <;> simp at h
  | c :: l₁, d :: l₂ => by
    intro h
    have hc := char_toNat_valid c
    have hd := char_toNat_valid d
    simp only [List.flatMap_cons, unitsOfChar] at h
    split at h <;> split at h
    · simp only [List.singleton_append, List.cons.injEq] at h
      rw [char_toNat_inj h.1, flatMap_unitsOfChar_inj l₁ l₂ h.2]
    · simp only [List.singleton_append, List.cons_append, List.nil_append,
        List.cons.injEq] at h
      omega
    · simp only [List.singleton_append, List.cons_append, List.nil_append,
        List.cons.injEq] at h
      omega
    · simp only [List.cons_append, List.nil_append, List.cons.injEq] at h
      have hcd : c.toNat = d.toNat := by omega
      rw [char_toNat_inj hcd, flatMap_unitsOfChar_inj l₁ l₂ h.2.2]

theorem utf16_inj {s t : String} (h : utf16 s = utf16 t) : s = t :=
  String.ext (flatMap_unitsOfChar_inj _ _ h)

theorem jsLe_total : IsTotal String jsLe :=
  ⟨fun a b => le_total (utf16 a) (utf16 b)⟩

theorem jsLe_trans : IsTrans String jsLe :=
  ⟨fun a b c h₁ h₂ => le_trans (a := utf16 a) (b := utf16 b) (c := utf16 c) h₁ h₂⟩

theorem jsLe_antisymm : IsAntisymm String jsLe :=
  ⟨fun a b h₁ h₂ => utf16_inj (le_antisymm (a := utf16 a) (b := utf16 b) h₁ h₂)⟩

theorem jsSort_perm (xs : List String) : (jsSort xs).Perm xs :=
  List.perm_insertionSort jsLe xs

/-- Two arrays have the same sorted form exactly when one is a rearrangement of the other. -/
theorem jsSort_eq_iff_perm (xs ys : List String) : jsSort xs = jsSort ys ↔ xs.Perm ys := by
  haveI := jsLe_total
  haveI := jsLe_trans
  haveI := jsLe_antisymm
  constructor
  · intro h
    have hy := jsSort_perm ys
    rw [← h] at hy
    exact (jsSort_perm xs).symm.trans hy
  · intro h
    exact List.eq_of_perm_of_sorted
      (((jsSort_perm xs).trans h).trans (jsSort_perm ys).symm)
      (List.sorted_insertionSort jsLe xs) (List.sorted_insertionSort jsLe ys)

/-! ## The scoring of one question -/

theorem isCorrectOf_checkbox (q : Question) (a : JsVal) (ht : q.type = "checkbox")
    (ha : a.truthy = true) :
    isCorrectOf q a = true ↔ a.toArray.Perm q.correctAnswers := by
  have hne : ¬ (q.type = "mcq") := by rw [ht]; decide
  simp [isCorrectOf, ha, ht, jsSort_eq_iff_perm]

theorem isCorrectOf_mcq (q : Question) (a : JsVal) (ht : q.type = "mcq")
    (ha : a.truthy = true) :
    isCorrectOf q a = true ↔ ∃ s, a = .str s ∧ s ∈ q.correctAnswers := by
  cases a <;> simp [isCorrectOf, ht, includes, JsVal.truthy] at ha ⊢
  exact fun _ => ha

theorem isCorrectOf_truthy {q : Question} {a : JsVal} (h : isCorrectOf q a = true) :
    a.truthy = true ∧ (q.type = "mcq" ∨ q.type = "checkbox") := by
  unfold isCorrectOf at h
  split at h
  · rename_i ht
    refine ⟨ht, ?_⟩
    by_cases h1 : q.type = "mcq"
    · exact Or.inl h1
    · by_cases h2 : q.type = "checkbox"
      · exact Or.inr h2
      · simp [h1, h2] at h
  · simp at h

theorem marksObtainedOf_eq (q : Question) (a : JsVal) :
    marksObtainedOf q a = if isCorrectOf q a = true then q.marks else 0 := by
  unfold marksObtainedOf
  by_cases ha : a.truthy = true
  · simp [ha]
  · have : isCorrectOf q a = false := by simp [isCorrectOf, ha]
    simp [ha, this]


/-! ## The scoring loop -/

theorem scoreStep_eq (lookup : Nat → JsVal) (acc : ℚ × List DetailedAnswer) (q : Question) :
    scoreStep lookup acc q =
      (acc.1 + marksObtainedOf q (lookup q._id), acc.2 ++ [scoreQuestion q (lookup q._id)]) := by
  unfold scoreStep
  by_cases ha : (lookup q._id).truthy = true
  · simp [ha, scoreQuestion]
  · simp [ha, marksObtainedOf]

theorem foldl_scoreStep (lookup : Nat → JsVal) (qs : List Question)
    (acc : ℚ × List DetailedAnswer) :
    qs.foldl (scoreStep lookup) acc =
      (acc.1 + (qs.map (fun q => marksObtainedOf q (lookup q._id))).sum,
        acc.2 ++ qs.map (fun q => scoreQuestion q (lookup q._id))) := by
  induction qs generalizing acc with
  | nil => simp
  | cons q qs ih =>
    rw [List.foldl_cons, ih, scoreStep_eq]
    simp [add_assoc]

/-- The total is the sum of the marks of the questions, in question order. -/
theorem scoreLoop_fst (lookup : Nat → JsVal) (qs : List Question) :
    (scoreLoop lookup qs).1 = (qs.map (fun q => marksObtainedOf q (lookup q._id))).sum := by
  simp [scoreLoop, foldl_scoreStep]

/-- The detailed answers hold one entry per question, in question order. -/
theorem scoreLoop_snd (lookup : Nat → JsVal) (qs : List Question) :
    (scoreLoop lookup qs).2 = qs.map (fun q => scoreQuestion q (lookup q._id)) := by
  simp [scoreLoop, foldl_scoreStep]

theorem scoreLoop_sum (lookup : Nat → JsVal) (qs : List Question) :
    (scoreLoop lookup qs).1 = ((scoreLoop lookup qs).2.map (fun d => d.marksObtained)).sum := by
  rw [scoreLoop_fst, scoreLoop_snd, List.map_map]
  rfl

theorem sum_map_eraseIdx (f : Question → ℚ) : ∀ (qs : List Question) (i : Nat) (q : Question),
    qs[i]? = some q → f q = 0 → ((qs.eraseIdx i).map f).sum = (qs.map f).sum
  | [], _, _, h, _ => by simp at h
  | x :: xs, 0, q, h, h0 => by
    simp only [List.getElem?_cons_zero, Option.some.injEq] at h
    simp [h, h0]
  | x :: xs, i + 1, q, h, h0 => by
    simp only [List.getElem?_cons_succ] at h
    simp [sum_map_eraseIdx f xs i q h h0]

theorem roundDouble_zero : roundDouble 0 = .fin 0 := by decide!

theorem roundDouble_one : roundDouble 1 = .fin 1 := by decide!

theorem roundDouble_hundred : roundDouble 100 = .fin 100 := by decide!

theorem roundDouble_ne_nan (q : ℚ) : roundDouble q ≠ .nan := by
  unfold roundDouble
  split_ifs <;> simp

theorem percentageOf_of_ne_zero (t m : ℚ) (h : m ≠ 0) :
    percentageOf t m = (roundDouble (t / m)).times100 := by
  simp [percentageOf, jsDiv, h]

theorem times100_roundDouble_ne_nan (q : ℚ) : (roundDouble q).times100 ≠ .nan := by
  cases h : roundDouble q with
  | fin r => exact roundDouble_ne_nan _
  | nan => exact absurd h (roundDouble_ne_nan q)
  | posInf => simp [JsNum.times100]
  | negInf => simp [JsNum.times100]

/-- The percentage of all the marks of a total different from `0` is `100`. -/
theorem percentageOf_self (m : ℚ) (h : m ≠ 0) : percentageOf m m = .fin 100 := by
  rw [percentageOf_of_ne_zero _ _ h, div_self h, roundDouble_one]
  show roundDouble (1 * 100) = .fin 100
  rw [one_mul, roundDouble_hundred]

/-- The percentage of no marks of a total different from `0` is `0`. -/
theorem percentageOf_zero (m : ℚ) (h : m ≠ 0) : percentageOf 0 m = .fin 0 := by
  rw [percentageOf_of_ne_zero _ _ h, zero_div, roundDouble_zero]
  show roundDouble (0 * 100) = .fin 0
  rw [zero_mul, roundDouble_zero]

/-- Rounding to the nearest integer moves a number by at most one half. -/
theorem roundHalfEven_error (q : ℚ) : |(roundHalfEven q : ℚ) - q| ≤ 1 / 2 := by
  have hf : ((⌊q⌋ : ℤ) : ℚ) ≤ q := Int.floor_le q
  have hlt : q < ((⌊q⌋ : ℤ) : ℚ) + 1 := Int.lt_floor_add_one q
  unfold roundHalfEven
  rw [abs_le]
  split_ifs with h1 h2 h3
  · constructor <;> linarith
  · push_cast
    constructor <;> linarith
  · constructor <;> linarith
  · push_cast
    constructor <;> linarith

theorem ulpOf_pos (a : ℚ) : 0 < ulpOf a :=
  zpow_pos (by norm_num) _

theorem ulpOf_le {a : ℚ} (h : (2 : ℚ) ^ (-1022 : ℤ) ≤ a) : ulpOf a ≤ a / 2 ^ 52 := by
  have ha : 0 < a := lt_of_lt_of_le (zpow_pos (by norm_num) _) h
  have hlog : (-1022 : ℤ) ≤ Int.log 2 a := (Int.zpow_le_iff_le_log (by norm_num) ha).1 (by exact_mod_cast h)
  unfold ulpOf
  rw [max_eq_left hlog, zpow_sub₀ (by norm_num : (2 : ℚ) ≠ 0)]
  have h2 : (2 : ℚ) ^ Int.log 2 a ≤ a := by
    have := Int.zpow_log_le_self (b := 2) (by norm_num) ha
    exact_mod_cast this
  have h52 : (2 : ℚ) ^ (52 : ℤ) = 2 ^ 52 := by norm_cast
  rw [h52]
  exact div_le_div_of_nonneg_right h2 (by positivity)

theorem roundPos_error (a : ℚ) (hlo : (2 : ℚ) ^ (-1022 : ℤ) ≤ a) :
    abs ((roundHalfEven (a / ulpOf a) : ℚ) * ulpOf a - a) ≤ a / 2 ^ 53 := by
  have hu := ulpOf_pos a
  have hule := ulpOf_le hlo
  have hm := roundHalfEven_error (a / ulpOf a)
  have h1 : (roundHalfEven (a / ulpOf a) : ℚ) * ulpOf a - a =
      ((roundHalfEven (a / ulpOf a) : ℚ) - a / ulpOf a) * ulpOf a := by
    field_simp
  rw [h1, abs_mul, abs_of_pos hu]
  calc abs ((roundHalfEven (a / ulpOf a) : ℚ) - a / ulpOf a) * ulpOf a
      ≤ 1 / 2 * ulpOf a := mul_le_mul_of_nonneg_right hm hu.le
    _ ≤ 1 / 2 * (a / 2 ^ 52) := mul_le_mul_of_nonneg_left hule (by norm_num)
    _ = a / 2 ^ 53 := by ring

/-- In the normal range of the doubles, rounding moves a number by at most the fraction
`2 ^ (-53)` of its magnitude, and the result is finite. -/
theorem roundDouble_error (q : ℚ) (hlo : (2 : ℚ) ^ (-1022 : ℤ) ≤ |q|) (hhi : |q| ≤ 2 ^ 1023) :
    ∃ r : ℚ, roundDouble q = .fin r ∧ |r - q| ≤ |q| / 2 ^ 53 := by
  have ha : 0 < |q| := lt_of_lt_of_le (zpow_pos (by norm_num) _) hlo
  have herr := roundPos_error |q| hlo
  have hbound := abs_le.1 herr
  have hno : ¬ ((2 : ℚ) ^ 1024 ≤ (roundHalfEven (|q| / ulpOf |q|) : ℚ) * ulpOf |q|) := by
    intro hov
    have h4 : (2 : ℚ) ^ 1024 = 2 * 2 ^ 1023 := by ring
    have h5 : |q| / (2 : ℚ) ^ 53 < |q| := div_lt_self ha (by norm_num)
    linarith [hbound.2]
  unfold roundDouble
  rw [if_neg hno]
  by_cases hq : 0 ≤ q
  · rw [if_pos hq]
    refine ⟨_, rfl, ?_⟩
    rw [abs_of_nonneg hq] at herr ⊢
    exact herr
  · rw [if_neg hq]
    refine ⟨_, rfl, ?_⟩
    have hneg : |q| = -q := abs_of_neg (not_le.1 hq)
    have h6 : -((roundHalfEven (|q| / ulpOf |q|) : ℚ) * ulpOf |q|) - q =
        -((roundHalfEven (|q| / ulpOf |q|) : ℚ) * ulpOf |q| - |q|) := by
      rw [hneg]; ring
    rw [h6, abs_neg]
    exact herr

/-- The two roundings of the percentage expression move it by at most the fraction `2 ^ (-51)` of
the exact percentage, for a quotient in the normal range of the doubles. -/
theorem percentageOf_error (t m : ℚ) (hm : m ≠ 0) (hlo : (2 : ℚ) ^ (-1022 : ℤ) ≤ |t / m|)
    (hhi : |t / m| ≤ 2 ^ 1000) :
    ∃ p : ℚ, percentageOf t m = .fin p ∧ |p - 100 * t / m| ≤ |100 * t / m| / 2 ^ 51 := by
  have hx : 0 < |t / m| := lt_of_lt_of_le (zpow_pos (by norm_num) _) hlo
  obtain ⟨d, hd, hde⟩ := roundDouble_error (t / m) hlo
    (le_trans hhi (pow_le_pow_right₀ (by norm_num) (by norm_num)))
  have hdx : |d| ≤ |t / m| + |t / m| / 2 ^ 53 := by
    have := abs_sub_abs_le_abs_sub d (t / m)
    linarith
  have hdx' : |t / m| - |t / m| / 2 ^ 53 ≤ |d| := by
    have := abs_sub_abs_le_abs_sub (t / m) d
    rw [abs_sub_comm] at this
    linarith
  have hsmall : |t / m| / (2 : ℚ) ^ 53 ≤ |t / m| / 2 := by
    apply div_le_div_of_nonneg_left hx.le (by norm_num) (by norm_num)
  have hylo : (2 : ℚ) ^ (-1022 : ℤ) ≤ |d * 100| := by
    rw [abs_mul, abs_of_pos (by norm_num : (0 : ℚ) < 100)]
    have hd2 : |t / m| ≤ |d| * 100 := by linarith
    exact le_trans hlo hd2
  have hyhi : |d * 100| ≤ 2 ^ 1023 := by
    rw [abs_mul, abs_of_pos (by norm_num : (0 : ℚ) < 100)]
    have h7 : (2 : ℚ) ^ 1023 = 2 ^ 23 * 2 ^ 1000 := by rw [← pow_add]
    have h8 : (2 : ℚ) ^ 23 = 8388608 := by norm_num
    rw [h7, h8]
    nlinarith
  obtain ⟨p, hp, hpe⟩ := roundDouble_error (d * 100) hylo hyhi
  refine ⟨p, ?_, ?_⟩
  · simp only [percentageOf, jsDiv, if_neg hm, hd, JsNum.times100, hp]
  · have h9 : p - 100 * t / m = (p - d * 100) + 100 * (d - t / m) := by ring
    have h10 : |100 * t / m| = 100 * |t / m| := by
      rw [mul_div_assoc, abs_mul, abs_of_pos (by norm_num : (0 : ℚ) < 100)]
    rw [h9, h10]
    have h11 : |d * 100| = 100 * |d| := by
      rw [abs_mul, abs_of_pos (by norm_num : (0 : ℚ) < 100)]; ring
    rw [h11] at hpe
    have h12 : |100 * (d - t / m)| = 100 * |d - t / m| := by
      rw [abs_mul, abs_of_pos (by norm_num : (0 : ℚ) < 100)]
    have h13 := abs_add (p - d * 100) (100 * (d - t / m))
    rw [h12] at h13
    have h14 : (2 : ℚ) ^ 53 = 4 * 2 ^ 51 := by norm_num
    have h15 : (0 : ℚ) < 2 ^ 51 := by positivity
    have h16 : 100 * |d| / 2 ^ 53 ≤ 100 * (|t / m| + |t / m| / 2 ^ 53) / 2 ^ 53 := by
      apply div_le_div_of_nonneg_right _ (by positivity)
      linarith
    have h17 : 100 * (|t / m| + |t / m| / 2 ^ 53) / (2 : ℚ) ^ 53 + 100 * (|t / m| / 2 ^ 53) ≤
        100 * |t / m| / 2 ^ 51 := by
      rw [h14]
      have h18 : |t / m| / (4 * (2 : ℚ) ^ 51) ≤ |t / m| := by
        apply div_le_self hx.le
        nlinarith
      field_simp
      rw [div_le_div_iff₀ (by positivity) (by positivity)]
      nlinarith [hx, h15]
    linarith

theorem Exam.new_totalMarks_ne_zero (id : Nat) (now : Int) (data : ExamData) :
    (Exam.new id now data).totalMarks ≠ 0 := by
  show ratOr data.totalMarks 100 ≠ 0
  unfold ratOr
  split
  · split
    · norm_num
    · assumption
  · norm_num

/-! ## C1 - C3: single-choice and multi-select questions -/

/-- C1 (as stated, refuted): for the multi-select question of the scenario with
`correctAnswers = ["A"]`, the truthy answer `["A", "A"]` has exactly the set of values of the
correct answers, and yet the loop body marks it incorrect and awards no marks. -/
theorem checkbox_set_equality_not_sufficient :
    ({ scenarioCheckbox with correctAnswers := ["A"] } : Question).type = "checkbox" ∧
      (JsVal.arr ["A", "A"]).truthy = true ∧
      (∀ s, s ∈ (JsVal.arr ["A", "A"]).toArray ↔
        s ∈ ({ scenarioCheckbox with correctAnswers := ["A"] } : Question).correctAnswers) ∧
      (scoreQuestion { scenarioCheckbox with correctAnswers := ["A"] }
        (.arr ["A", "A"])).isCorrect = false ∧
      (scoreQuestion { scenarioCheckbox with correctAnswers := ["A"] }
        (.arr ["A", "A"])).marksObtained = 0 :=
  ⟨by decide, by decide, by simp [JsVal.toArray], by decide, by decide!⟩

/-- C1 (amended): for a question of type `checkbox` and a truthy submitted answer (a non-array
value counts as a one-element list), the loop body marks the question correct if and only if the
submitted list is a rearrangement of `correctAnswers` (the same values with the same
multiplicities); the marks awarded are `question.marks` when correct and `0` otherwise. -/
theorem checkbox_correct_iff_perm (q : Question) (a : JsVal) (ht : q.type = "checkbox")
    (ha : a.truthy = true) :
    ((scoreQuestion q a).isCorrect = true ↔ a.toArray.Perm q.correctAnswers) ∧
      (scoreQuestion q a).marksObtained =
        if a.toArray.Perm q.correctAnswers then q.marks else 0 := by
  have h := isCorrectOf_checkbox q a ht ha
  refine ⟨h, ?_⟩
  show marksObtainedOf q a = _
  rw [marksObtainedOf_eq]
  by_cases hp : a.toArray.Perm q.correctAnswers
  · simp [hp, h.2 hp]
  · have hf : ¬ (isCorrectOf q a = true) := fun hc => hp (h.1 hc)
    simp [hp, hf]

theorem checkbox_correct_iff_perm_witness :
    ((scoreQuestion scenarioCheckbox (.arr ["B", "A"])).isCorrect = true ↔
      (JsVal.arr ["B", "A"]).toArray.Perm scenarioCheckbox.correctAnswers) ∧
    (scoreQuestion scenarioCheckbox (.arr ["B", "A"])).marksObtained =
      if (JsVal.arr ["B", "A"]).toArray.Perm scenarioCheckbox.correctAnswers
      then scenarioCheckbox.marks else 0 :=
  checkbox_correct_iff_perm scenarioCheckbox (.arr ["B", "A"]) (by decide) (by decide)

/-- C2: for a question of type `mcq` and a truthy submitted answer, the loop body marks the
question correct if and only if the value is an element of `correctAnswers` (a string that the
list contains), and awards `question.marks` when correct and `0` otherwise. -/
theorem mcq_correct_iff_mem (q : Question) (a : JsVal) (ht : q.type = "mcq")
    (ha : a.truthy = true) :
    ((scoreQuestion q a).isCorrect = true ↔ ∃ s, a = .str s ∧ s ∈ q.correctAnswers) ∧
      (scoreQuestion q a).marksObtained =
        if (scoreQuestion q a).isCorrect = true then q.marks else 0 :=
  ⟨isCorrectOf_mcq q a ht ha, marksObtainedOf_eq q a⟩

theorem mcq_correct_iff_mem_witness :
    ((scoreQuestion scenarioMcq (.str "A")).isCorrect = true ↔
      ∃ s, JsVal.str "A" = .str s ∧ s ∈ scenarioMcq.correctAnswers) ∧
    (scoreQuestion scenarioMcq (.str "A")).marksObtained =
      if (scoreQuestion scenarioMcq (.str "A")).isCorrect = true
      then scenarioMcq.marks else 0 :=
  mcq_correct_iff_mem scenarioMcq (.str "A") (by decide) (by decide)

/-- C3: for a question of type `checkbox`, every rearrangement of `correctAnswers` submitted as
the answer is marked correct and is awarded `question.marks`. -/
theorem checkbox_order_independent (q : Question) (xs : List String)
    (ht : q.type = "checkbox") (hp : xs.Perm q.correctAnswers) :
    (scoreQuestion q (.arr xs)).isCorrect = true ∧
      (scoreQuestion q (.arr xs)).marksObtained = q.marks := by
  have hc : isCorrectOf q (.arr xs) = true := (isCorrectOf_checkbox q (.arr xs) ht rfl).2 hp
  refine ⟨hc, ?_⟩
  show marksObtainedOf q (.arr xs) = _
  rw [marksObtainedOf_eq]
  simp [hc]

theorem checkbox_order_independent_witness :
    (scoreQuestion scenarioCheckbox (.arr ["B", "A"])).isCorrect = true ∧
    (scoreQuestion scenarioCheckbox (.arr ["B", "A"])).marksObtained =
      scenarioCheckbox.marks :=
  checkbox_order_independent scenarioCheckbox ["B", "A"] (by decide) (by decide)

/-! ## C4 - C8: totals, percentage and pass mark -/

/-- C4: in the scoring loop of `submitExam`, a question whose answer is absent or falsy, or whose
type is neither `mcq` nor `checkbox`, gets `isCorrect = false` and `marksObtained = 0` in its
entry of the detailed answers and adds nothing to `totalMarksObtained` (the total is the one of
the question list without it); and an entry with `isCorrect = true` belongs to a question of
type `mcq` or `checkbox` with a truthy answer. -/
theorem unanswered_or_free_text_scores_zero (qs : List Question) (answers : AnswerMap)
    (i : Nat) (q : Question) (hq : qs[i]? = some q)
    (h : (answers.get q._id).truthy = false ∨ (q.type ≠ "mcq" ∧ q.type ≠ "checkbox")) :
    (∃ d, (submitScore qs answers).2[i]? = some d ∧ d.question = q._id ∧
        d.isCorrect = false ∧ d.marksObtained = 0) ∧
      (submitScore qs answers).1 = (submitScore (qs.eraseIdx i) answers).1 ∧
      (∀ (j : Nat) (q' : Question) (d : DetailedAnswer), qs[j]? = some q' →
        (submitScore qs answers).2[j]? = some d → d.isCorrect = true →
        (answers.get q'._id).truthy = true ∧ (q'.type = "mcq" ∨ q'.type = "checkbox")) := by
  have hinc : isCorrectOf q (answers.get q._id) = false := by
    cases hc : isCorrectOf q (answers.get q._id) with
    | false => rfl
    | true =>
      have := isCorrectOf_truthy hc
      rcases h with h | h
      · rw [h] at this
        exact absurd this.1 (by decide)
      · rcases this.2 with h' | h'
        · exact absurd h' h.1
        · exact absurd h' h.2
  have hmarks : marksObtainedOf q (answers.get q._id) = 0 := by
    rw [marksObtainedOf_eq]
    simp [hinc]
  refine ⟨⟨scoreQuestion q (answers.get q._id), ?_, rfl, hinc, hmarks⟩, ?_, ?_⟩
  · simp [submitScore, scoreLoop_snd, hq]
  · simp only [submitScore, scoreLoop_fst]
    exact (sum_map_eraseIdx _ qs i q hq hmarks).symm
  · intro j q' d hq' hd hc
    simp only [submitScore, scoreLoop_snd, List.getElem?_map, hq', Option.map_some',
      Option.some.injEq] at hd
    subst hd
    exact isCorrectOf_truthy hc

theorem unanswered_or_free_text_scores_zero_witness :
    ((AnswerMap.get [(1, .str "A")] scenarioCheckbox._id).truthy = false ∨
      (scenarioCheckbox.type ≠ "mcq" ∧ scenarioCheckbox.type ≠ "checkbox")) ∧
    ((∃ d, (submitScore [scenarioMcq, scenarioCheckbox] [(1, .str "A")]).2[1]? = some d ∧
        d.question = scenarioCheckbox._id ∧ d.isCorrect = false ∧ d.marksObtained = 0) ∧
      (submitScore [scenarioMcq, scenarioCheckbox] [(1, .str "A")]).1 =
        (submitScore ([scenarioMcq, scenarioCheckbox].eraseIdx 1) [(1, .str "A")]).1 ∧
      (∀ (j : Nat) (q' : Question) (d : DetailedAnswer),
        [scenarioMcq, scenarioCheckbox][j]? = some q' →
        (submitScore [scenarioMcq, scenarioCheckbox] [(1, .str "A")]).2[j]? = some d →
        d.isCorrect = true →
        (AnswerMap.get [(1, .str "A")] q'._id).truthy = true ∧
          (q'.type = "mcq" ∨ q'.type = "checkbox"))) :=
  ⟨Or.inl (by decide),
    unanswered_or_free_text_scores_zero [scenarioMcq, scenarioCheckbox] [(1, .str "A")] 1
      scenarioCheckbox rfl (Or.inl (by decide))⟩

/-- C5 (as stated, refuted): an exam with `totalMarks = 100` and the pass mark `57`, whose only
question is worth `57` marks and is answered correctly.  The obtained marks are `57` and
`100 × 57 / 100 = 57` reaches the pass mark, and yet the score is the double
`56.99999999999999` (the quotient `0.57` and its product with `100` are each rounded), not `57`,
and `passed` is false. -/
theorem score_differs_from_exact_percentage :
    (Exam.new 1 0 passMarkExamData).totalMarks = 100 ∧
      (Exam.new 1 0 passMarkExamData).passingMarks = 57 ∧
      (submitSummary (Exam.new 1 0 passMarkExamData) [passMarkQuestion] [(1, .str "A")] 30
        none).obtainedMarks = 57 ∧
      (100 * 57 / 100 : ℚ) = 57 ∧
      (submitSummary (Exam.new 1 0 passMarkExamData) [passMarkQuestion] [(1, .str "A")] 30
        none).score = .fin (8022036836253695 / 140737488355328) ∧
      (submitSummary (Exam.new 1 0 passMarkExamData) [passMarkQuestion] [(1, .str "A")] 30
        none).score ≠ .fin 57 ∧
      (submitSummary (Exam.new 1 0 passMarkExamData) [passMarkQuestion] [(1, .str "A")] 30
        none).passed = false :=
  ⟨by decide!, by decide!, by decide!, by decide!, by decide!, by decide!, by decide!⟩

/-- C5 (amended): for an exam with `totalMarks` different from `0`, the summary that the scoring
statements of `submitExam` compute has `obtainedMarks` equal to the sum of `marksObtained` over
the detailed answers, which hold one entry per question in question order; when the quotient
`obtainedMarks / totalMarks` is `0` or has a magnitude between `2 ^ (-1022)` and `2 ^ 1000`, the
`score`, computed as `(obtainedMarks / totalMarks) * 100` in double precision, is a finite number
`p` that differs from `100 × obtainedMarks / totalMarks` by at most the fraction `2 ^ (-51)` of
it; and `passed` is true exactly when this computed score `p` is at least `passingMarks`. -/
theorem submitSummary_score (exam : Exam) (qs : List Question) (answers : AnswerMap)
    (t : Int) (sa : Option Int) (h0 : exam.totalMarks ≠ 0)
    (hlo : (submitScore qs answers).1 = 0 ∨
      (2 : ℚ) ^ (-1022 : ℤ) ≤ |(submitScore qs answers).1 / exam.totalMarks|)
    (hhi : |(submitScore qs answers).1 / exam.totalMarks| ≤ 2 ^ 1000) :
    (submitSummary exam qs answers t sa).obtainedMarks =
        ((submitScore qs answers).2.map (fun d => d.marksObtained)).sum ∧
      (submitScore qs answers).2.map (fun d => d.question) = qs.map (fun q => q._id) ∧
      ∃ p : ℚ, (submitSummary exam qs answers t sa).score = .fin p ∧
        |p - 100 * (submitSummary exam qs answers t sa).obtainedMarks / exam.totalMarks| ≤
          |100 * (submitSummary exam qs answers t sa).obtainedMarks / exam.totalMarks| / 2 ^ 51 ∧
        ((submitSummary exam qs answers t sa).passed = true ↔ exam.passingMarks ≤ p) := by
  refine ⟨scoreLoop_sum _ _, by simp [submitScore, scoreLoop_snd, scoreQuestion], ?_⟩
  have hp : ∃ p : ℚ, percentageOf (submitScore qs answers).1 exam.totalMarks = .fin p ∧
      |p - 100 * (submitScore qs answers).1 / exam.totalMarks| ≤
        |100 * (submitScore qs answers).1 / exam.totalMarks| / 2 ^ 51 := by
    rcases hlo with hz | hlo
    · refine ⟨0, ?_, ?_⟩
      · rw [hz, percentageOf_zero _ h0]
      · simp [hz]
    · exact percentageOf_error _ _ h0 hlo hhi
  obtain ⟨p, hscore, herr⟩ := hp
  refine ⟨p, hscore, herr, ?_⟩
  show (percentageOf (submitScore qs answers).1 exam.totalMarks).ge exam.passingMarks = true ↔ _
  rw [hscore]
  simp [JsNum.ge]

theorem submitSummary_score_witness :
    (Exam.new 1 0 passMarkExamData).totalMarks ≠ 0 ∧
    ((submitScore [passMarkQuestion] [(1, .str "A")]).1 = 0 ∨
      (2 : ℚ) ^ (-1022 : ℤ) ≤
        |(submitScore [passMarkQuestion] [(1, .str "A")]).1 /
          (Exam.new 1 0 passMarkExamData).totalMarks|) ∧
    |(submitScore [passMarkQuestion] [(1, .str "A")]).1 /
        (Exam.new 1 0 passMarkExamData).totalMarks| ≤ 2 ^ 1000 ∧
    ((submitSummary (Exam.new 1 0 passMarkExamData) [passMarkQuestion] [(1, .str "A")] 30
          none).obtainedMarks =
        ((submitScore [passMarkQuestion] [(1, .str "A")]).2.map
          (fun d => d.marksObtained)).sum ∧
      (submitScore [passMarkQuestion] [(1, .str "A")]).2.map (fun d => d.question) =
        [passMarkQuestion].map (fun q => q._id) ∧
      ∃ p : ℚ, (submitSummary (Exam.new 1 0 passMarkExamData) [passMarkQuestion]
          [(1, .str "A")] 30 none).score = .fin p ∧
        |p - 100 * (submitSummary (Exam.new 1 0 passMarkExamData) [passMarkQuestion]
            [(1, .str "A")] 30 none).obtainedMarks /
            (Exam.new 1 0 passMarkExamData).totalMarks| ≤
          |100 * (submitSummary (Exam.new 1 0 passMarkExamData) [passMarkQuestion]
            [(1, .str "A")] 30 none).obtainedMarks /
            (Exam.new 1 0 passMarkExamData).totalMarks| / 2 ^ 51 ∧
        ((submitSummary (Exam.new 1 0 passMarkExamData) [passMarkQuestion] [(1, .str "A")] 30
          none).passed = true ↔ (Exam.new 1 0 passMarkExamData).passingMarks ≤ p)) :=
  have h1 : (submitScore [passMarkQuestion] [(1, .str "A")]).1 = 57 := by decide!
  have h2 : (Exam.new 1 0 passMarkExamData).totalMarks = 100 := by decide!
  have hlo : (2 : ℚ) ^ (-1022 : ℤ) ≤
      |(submitScore [passMarkQuestion] [(1, .str "A")]).1 /
        (Exam.new 1 0 passMarkExamData).totalMarks| := by
    rw [h1, h2, abs_of_pos (by norm_num)]
    exact le_trans (zpow_le_zpow_right₀ (by norm_num) (by norm_num : (-1022 : ℤ) ≤ -1))
      (by norm_num)
  have hhi : |(submitScore [passMarkQuestion] [(1, .str "A")]).1 /
      (Exam.new 1 0 passMarkExamData).totalMarks| ≤ 2 ^ 1000 := by
    rw [h1, h2, abs_of_pos (by norm_num)]
    exact le_trans (by norm_num) (one_le_pow₀ (by norm_num))
  ⟨by decide!, Or.inr hlo, hhi,
    submitSummary_score (Exam.new 1 0 passMarkExamData) [passMarkQuestion] [(1, .str "A")] 30
      none (by decide!) (Or.inr hlo) hhi⟩

/-- C6 (as stated, refuted): an exam created without `totalMarks` has `totalMarks = 100 > 0`;
with the single-choice question of the scenario as its only question, answered correctly, every
detailed answer is correct and yet the percentage is `1`, not `100`. -/
theorem all_correct_not_hundred :
    0 < (Exam.new 1 0 { scenarioExamData with totalMarks := none }).totalMarks ∧
      (∀ d ∈ (submitScore [scenarioMcq] [(1, .str "A")]).2, d.isCorrect = true) ∧
      (submitSummary (Exam.new 1 0 { scenarioExamData with totalMarks := none }) [scenarioMcq]
        [(1, .str "A")] 30 none).score = .fin 1 ∧
      (submitSummary (Exam.new 1 0 { scenarioExamData with totalMarks := none }) [scenarioMcq]
        [(1, .str "A")] 30 none).score ≠ .fin 100 :=
  ⟨by decide!, by decide!, by decide!, by decide!⟩

/-- C6 (amended): for an exam whose `totalMarks` is positive and equal to the sum of the marks of
its questions, and an answer map for which the loop marks every question correct, the scoring
yields `obtainedMarks = totalMarks` and percentage `100`, and `passed` is true exactly when
`passingMarks ≤ 100`. -/
theorem all_correct_scores_hundred (exam : Exam) (qs : List Question) (answers : AnswerMap)
    (t : Int) (sa : Option Int) (hpos : 0 < exam.totalMarks)
    (htotal : exam.totalMarks = (qs.map (fun q => q.marks)).sum)
    (hall : ∀ d ∈ (submitScore qs answers).2, d.isCorrect = true) :
    (submitSummary exam qs answers t sa).obtainedMarks = exam.totalMarks ∧
      (submitSummary exam qs answers t sa).score = .fin 100 ∧
      ((submitSummary exam qs answers t sa).passed = true ↔ exam.passingMarks ≤ 100) := by
  have hobt : (submitScore qs answers).1 = exam.totalMarks := by
    rw [htotal]
    simp only [submitScore, scoreLoop_fst]
    congr 1
    apply List.map_congr_left
    intro q hq
    have hc : isCorrectOf q (answers.get q._id) = true := by
      refine hall (scoreQuestion q (answers.get q._id)) ?_
      simp only [submitScore, scoreLoop_snd, List.mem_map]
      exact ⟨q, hq, rfl⟩
    rw [marksObtainedOf_eq]
    simp [hc]
  have hne : exam.totalMarks ≠ 0 := ne_of_gt hpos
  have hscore : (submitSummary exam qs answers t sa).score = .fin 100 := by
    simp only [submitSummary, hobt, percentageOf_self _ hne]
  refine ⟨hobt, hscore, ?_⟩
  have hpassed : (submitSummary exam qs answers t sa).passed =
      (submitSummary exam qs answers t sa).score.ge exam.passingMarks := rfl
  rw [hpassed, hscore]
  simp [JsNum.ge]

theorem all_correct_scores_hundred_witness :
    0 < scenarioExam.totalMarks ∧
    scenarioExam.totalMarks =
      ([scenarioMcq, scenarioCheckbox].map (fun q => q.marks)).sum ∧
    (∀ d ∈ (submitScore [scenarioMcq, scenarioCheckbox] scenarioAnswers).2,
      d.isCorrect = true) ∧
    (submitSummary scenarioExam [scenarioMcq, scenarioCheckbox] scenarioAnswers 30
        none).obtainedMarks = scenarioExam.totalMarks ∧
    (submitSummary scenarioExam [scenarioMcq, scenarioCheckbox] scenarioAnswers 30
        none).score = .fin 100 ∧
    ((submitSummary scenarioExam [scenarioMcq, scenarioCheckbox] scenarioAnswers 30
        none).passed = true ↔ scenarioExam.passingMarks ≤ 100) :=
  ⟨by decide!, by decide!, by decide!,
    all_correct_scores_hundred scenarioExam [scenarioMcq, scenarioCheckbox] scenarioAnswers 30
      none (by decide!) (by decide!) (by decide!)⟩

/-- C7: for every exam (as built by the `Exam` constructor) and every question list, scoring the
empty answer map yields `totalMarksObtained = 0`, percentage `0` and no detailed answer with
`isCorrect = true`; `passed` is then true only for a pass mark of at most `0`. -/
theorem empty_answers_score_zero (id : Nat) (now : Int) (data : ExamData)
    (qs : List Question) (t : Int) (sa : Option Int) :
    (submitScore qs []).1 = 0 ∧
      (∀ d ∈ (submitScore qs []).2, d.isCorrect = false ∧ d.marksObtained = 0) ∧
      (submitSummary (Exam.new id now data) qs [] t sa).obtainedMarks = 0 ∧
      (submitSummary (Exam.new id now data) qs [] t sa).score = .fin 0 ∧
      ((submitSummary (Exam.new id now data) qs [] t sa).passed = true ↔
        (Exam.new id now data).passingMarks ≤ 0) := by
  have hget : ∀ k, AnswerMap.get [] k = .undefined := fun _ => rfl
  have hmarks : ∀ q : Question, marksObtainedOf q (AnswerMap.get [] q._id) = 0 := by
    intro q
    simp [marksObtainedOf, hget, JsVal.truthy]
  have hzero : (submitScore qs []).1 = 0 := by
    simp only [submitScore, scoreLoop_fst, hmarks]
    simp
  have hne := Exam.new_totalMarks_ne_zero id now data
  refine ⟨hzero, ?_, hzero, ?_, ?_⟩
  · intro d hd
    simp only [submitScore, scoreLoop_snd, List.mem_map] at hd
    obtain ⟨q, _, rfl⟩ := hd
    exact ⟨by simp [scoreQuestion, isCorrectOf, hget, JsVal.truthy], hmarks q⟩
  · simp [submitSummary, hzero, percentageOf_zero _ hne]
  · simp [submitSummary, hzero, percentageOf_zero _ hne, JsNum.ge]

/-- C8 (as stated, refuted): the exam of the scenario, submitted with `totalMarks = 0`.  The
constructor stores it with `totalMarks = 100`; for the fully correct answers of the scenario
(`3` marks) the percentage expression of `submitExam` and of `autoSubmitExam` yields `3`,
not `0`. -/
theorem zero_totalMarks_percentage_not_zero :
    zeroTotalExamData.totalMarks = some 0 ∧
      (Exam.new 1 0 zeroTotalExamData).totalMarks = 100 ∧
      (submitSummary (Exam.new 1 0 zeroTotalExamData) [scenarioMcq, scenarioCheckbox]
        scenarioAnswers 30 none).score = .fin 3 ∧
      percentageOf (autoSubmitScore [scenarioMcq, scenarioCheckbox] (some scenarioAnswers)).1
        (Exam.new 1 0 zeroTotalExamData).totalMarks = .fin 3 ∧
      JsNum.fin 3 ≠ .fin 0 :=
  ⟨by decide!, by decide!, by decide!, by decide!, by decide!⟩

/-- C8 (amended): the `Exam` constructor replaces a missing or zero `totalMarks` by `100`, so no
exam it builds has `totalMarks = 0`.  For such an exam the percentage expression of `submitExam`
and `autoSubmitExam` never divides by zero: it is the rounded quotient
`totalMarksObtained / totalMarks` times `100`, never `NaN`, and it is `0` when no marks are
obtained. -/
theorem constructed_exam_percentage_guarded (id : Nat) (now : Int) (data : ExamData)
    (totalMarksObtained : ℚ) :
    (Exam.new id now data).totalMarks ≠ 0 ∧
      ((data.totalMarks = none ∨ data.totalMarks = some 0) →
        (Exam.new id now data).totalMarks = 100) ∧
      percentageOf totalMarksObtained (Exam.new id now data).totalMarks =
        (roundDouble (totalMarksObtained / (Exam.new id now data).totalMarks)).times100 ∧
      percentageOf totalMarksObtained (Exam.new id now data).totalMarks ≠ .nan ∧
      percentageOf 0 (Exam.new id now data).totalMarks = .fin 0 := by
  have hne := Exam.new_totalMarks_ne_zero id now data
  refine ⟨hne, ?_, percentageOf_of_ne_zero _ _ hne, ?_, percentageOf_zero _ hne⟩
  · rintro (h | h) <;> simp [Exam.new, ratOr, h]
  · rw [percentageOf_of_ne_zero _ _ hne]
    exact times100_roundDouble_ne_nan _

/-! ## The effect of the handlers on the store -/

theorem mem_updateFirst {p : Result → Bool} {f : Result → Result} :
    ∀ (l : List Result) {b : Result}, b ∈ updateFirst p f l →
      b ∈ l ∨ ∃ r ∈ l, p r = true ∧ b = f r
  | [], b, h => by simp [updateFirst] at h
  | x :: xs, b, h => by
    unfold updateFirst at h
    by_cases hp : p x = true
    · rw [if_pos hp, List.mem_cons] at h
      rcases h with h | h
      · exact Or.inr ⟨x, List.mem_cons_self _ _, hp, h⟩
      · exact Or.inl (List.mem_cons_of_mem _ h)
    · rw [if_neg hp, List.mem_cons] at h
      rcases h with h | h
      · exact Or.inl (h ▸ List.mem_cons_self _ _)
      · rcases mem_updateFirst xs h with h' | ⟨r, hr, hpr, hb⟩
        · exact Or.inl (List.mem_cons_of_mem _ h')
        · exact Or.inr ⟨r, List.mem_cons_of_mem _ hr, hpr, hb⟩

/-- A relation between earlier and later records survives the update of the first record that
satisfies `p`, when it survives the replacement of that record on either side. -/
theorem pairwise_updateFirst {R : Result → Result → Prop} {p : Result → Bool}
    {f : Result → Result}
    (h₁ : ∀ a r, p a = false → p r = true → R a r → R a (f r))
    (h₂ : ∀ r b, p r = true → R r b → R (f r) b) :
    ∀ (l : List Result), l.Pairwise R → (updateFirst p f l).Pairwise R
  | [], _ => by simp [updateFirst]
  | x :: xs, h => by
    rw [List.pairwise_cons] at h
    unfold updateFirst
    by_cases hp : p x = true
    · rw [if_pos hp, List.pairwise_cons]
      exact ⟨fun b hb => h₂ x b hp (h.1 b hb), h.2⟩
    · have hpf : p x = false := by simpa using hp
      rw [if_neg hp, List.pairwise_cons]
      refine ⟨fun b hb => ?_, pairwise_updateFirst h₁ h₂ xs h.2⟩
      rcases mem_updateFirst xs hb with hb' | ⟨r, hr, hpr, rfl⟩
      · exact h.1 b hb'
      · exact h₁ x r hpf hpr (h.1 r hr)

theorem length_filter_le_one {p : Result → Bool} :
    ∀ (l : List Result), l.Pairwise (fun a b => ¬ (p a = true ∧ p b = true)) →
      (l.filter p).length ≤ 1
  | [], _ => by simp
  | x :: xs, h => by
    rw [List.pairwise_cons] at h
    by_cases hp : p x = true
    · have hnil : xs.filter p = [] := by
        rw [List.filter_eq_nil_iff]
        intro b hb hpb
        exact h.1 b hb ⟨hp, hpb⟩
      simp [List.filter_cons, hp, hnil]
    · simp only [List.filter_cons, hp]
      exact length_filter_le_one xs h.2

theorem findOne_none {st : Store} {q : ResultQuery} (h : Result.findOne st q = none) :
    ∀ a ∈ st.results, findOneMatches q a = false := by
  intro a ha
  have := List.find?_eq_none.1 h a ha
  simpa using this

theorem Result.isOpen_of_status {a b : Result} (h : a.status = b.status) :
    a.isOpen = b.isOpen := by
  simp [Result.isOpen, h]

theorem userMatches_of_user {a : Result} {userId : Nat}
    (h : a.user = if userId = 0 then none else some userId) : userMatches a userId = true := by
  unfold userMatches
  by_cases hu : userId = 0
  · simp [hu]
  · simp [hu, h]

theorem userMatches_congr {a b : Result} (h : a.user = b.user) (userId : Nat) :
    userMatches a userId = userMatches b userId := by
  simp [userMatches, h]

theorem examMatches_of_exam {a : Result} {examId : String}
    (h : a.exam = if examId = "" then none else some examId) : examMatches a examId = true := by
  unfold examMatches
  by_cases he : examId = ""
  · simp [he]
  · simp [he, h]

theorem examMatches_of_ne {a : Result} {examId : String} (he : examId ≠ "") :
    examMatches a examId = (a.exam == some examId) := by
  simp [examMatches, he]

theorem openQuery_matches {a : Result} {userId : Nat} {examId : String}
    (huser : a.user = if userId = 0 then none else some userId)
    (hexam : a.exam = if examId = "" then none else some examId)
    (hopen : a.isOpen = true) : findOneMatches (openQuery userId examId) a = true := by
  have hu := userMatches_of_user huser
  have he := examMatches_of_exam hexam
  simp only [Result.isOpen, Bool.or_eq_true, beq_iff_eq] at hopen
  simp only [findOneMatches, openQuery, hu, he, Bool.and_self,
    Bool.true_and, List.contains_cons, List.contains_nil, Bool.or_false, Bool.or_eq_true,
    beq_iff_eq]
  exact hopen

theorem statusIs_never_matches (u : Nat) (e : String) (r : Result) :
    findOneMatches { user := u, exam := e, status := .is "in_progress" } r = false := by
  simp [findOneMatches]

/-- The query of `autoSubmitExam` selects no record, whatever the store holds. -/
theorem findOne_statusIs_none (st : Store) (u : Nat) (e : String) :
    Result.findOne st { user := u, exam := e, status := .is "in_progress" } = none := by
  unfold Result.findOne
  rw [List.find?_eq_none]
  intro r _
  simp [statusIs_never_matches]

theorem autoSubmitExam_eq (cat : Catalog) (st : Store) (u : Nat) (e : String) (now : Int) :
    autoSubmitExam cat st u e now = (.notFound "No active exam session found", st) := by
  unfold autoSubmitExam
  simp only [findOne_statusIs_none]

theorem effect_openUnique {st st' : Store} (h : Effect st st') (hinv : OpenUnique st) :
    OpenUnique st' := by
  cases h with
  | none => exact hinv
  | draft q f hid huser hexam hstatus =>
    refine pairwise_updateFirst (fun a r _ _ hR => ?_) (fun r b _ hR => ?_) _ hinv
    · rw [Result.isOpen_of_status (hstatus r), huser, hexam]
      exact hR
    · rw [Result.isOpen_of_status (hstatus r), huser, hexam]
      exact hR
  | create userId examId r hid hnone huser hexam hstatus =>
    show List.Pairwise _ (st.results ++ [r])
    rw [List.pairwise_append]
    refine ⟨hinv, List.pairwise_singleton _ _, ?_⟩
    intro a ha b hb
    rw [List.mem_singleton] at hb
    subst hb
    rintro ⟨hopen, -, hu, he⟩
    have := findOne_none hnone a ha
    rw [openQuery_matches (hu.trans huser) (he.trans hexam) hopen] at this
    exact absurd this (by decide)

theorem effect_idsFresh {st st' : Store} (h : Effect st st') (hinv : IdsFresh st) :
    IdsFresh st' := by
  have happend : ∀ r : Result, r._id = st.resultId →
      IdsFresh { results := st.results ++ [r], resultId := st.resultId + 1 } := by
    intro r hid
    refine ⟨fun a ha => ?_, ?_⟩
    · rcases List.mem_append.1 ha with ha | ha
      · exact Nat.lt_succ_of_lt (hinv.1 a ha)
      · rw [List.mem_singleton] at ha
        rw [ha, hid]
        exact Nat.lt_succ_self _
    · show List.Pairwise _ (st.results ++ [r])
      rw [List.pairwise_append]
      refine ⟨hinv.2, List.pairwise_singleton _ _, ?_⟩
      intro a ha b hb
      rw [List.mem_singleton] at hb
      rw [hb, hid]
      exact Nat.ne_of_lt (hinv.1 a ha)
  have hupdate : ∀ (q : ResultQuery) (f : Result → Result), (∀ r, (f r)._id = r._id) →
      IdsFresh (st.update q f) := by
    intro q f hid
    refine ⟨fun a ha => ?_, ?_⟩
    · rcases mem_updateFirst _ ha with ha | ⟨r, hr, -, rfl⟩
      · exact hinv.1 a ha
      · rw [hid]
        exact hinv.1 r hr
    · refine pairwise_updateFirst (fun a r _ _ hR => ?_) (fun r b _ hR => ?_) _ hinv.2
      · rw [hid]
        exact hR
      · rw [hid]
        exact hR
  cases h with
  | none => exact hinv
  | draft q f hid huser hexam hstatus => exact hupdate q f hid
  | create userId examId r hid hnone huser hexam hstatus => exact happend r hid

theorem effect_allInProgress {st st' : Store} (h : Effect st st') (hinv : AllInProgress st) :
    AllInProgress st' := by
  cases h with
  | none => exact hinv
  | draft q f hid huser hexam hstatus =>
    intro b hb
    rcases mem_updateFirst _ hb with hb | ⟨r, hr, -, rfl⟩
    · exact hinv b hb
    · rw [hstatus]
      exact hinv r hr
  | create userId examId r hid hnone huser hexam hstatus =>
    intro b hb
    rcases List.mem_append.1 hb with hb | hb
    · exact hinv b hb
    · rw [List.mem_singleton] at hb
      rw [hb, hstatus]

theorem startExam_effect (cat : Catalog) (st : Store) (u : Nat) (e : String) (now : Int) :
    Effect st (startExam cat st u e now).2 := by
  unfold startExam
  split
  · exact Effect.none
  · simp only
    split
    · exact Effect.none
    · split
      · exact Effect.none
      · rename_i hfind
        refine Effect.create u e _ rfl hfind rfl rfl ?_
        simp [Result.create, Result.new, strOr]

theorem saveExamProgress_effect (st : Store) (u : Nat) (e : String) (c : Option Nat)
    (a : Option AnswerMap) (t : Option Nat) (now : Int) :
    Effect st (saveExamProgress st u e c a t now).2 := by
  unfold saveExamProgress
  simp only
  split
  · exact Effect.draft _ _ (fun _ => rfl) (fun _ => rfl) (fun _ => rfl) (fun _ => rfl)
  · rename_i hfind
    refine Effect.create u e _ rfl hfind rfl rfl ?_
    simp [Result.create, Result.new, strOr]

theorem saveAnswer_effect (st : Store) (u : Nat) (e : String) (q : Nat) (a : JsVal) :
    Effect st (saveAnswer st u e q a).2 := by
  unfold saveAnswer
  split
  · exact Effect.none
  · split
    · exact Effect.none
    · exact Effect.draft _ _ (fun _ => rfl) (fun _ => rfl) (fun _ => rfl) (fun _ => rfl)

theorem markQuestion_effect (st : Store) (u : Nat) (e : String) (q : Nat) :
    Effect st (markQuestion st u e q).2 := by
  unfold markQuestion
  split
  · exact Effect.none
  · split
    · exact Effect.none
    · exact Effect.draft _ _ (fun _ => rfl) (fun _ => rfl) (fun _ => rfl) (fun _ => rfl)

theorem clearAnswer_effect (st : Store) (u : Nat) (e : String) (q : Nat) :
    Effect st (clearAnswer st u e q).2 := by
  unfold clearAnswer
  split
  · exact Effect.none
  · split
    · exact Effect.none
    · split
      · exact Effect.none
      · split
        · exact Effect.draft _ _ (fun _ => rfl) (fun _ => rfl) (fun _ => rfl) (fun _ => rfl)
        · exact Effect.none

theorem submitExam_eq (cat : Catalog) (st : Store) (u : Nat) (e : String) (a : AnswerMap)
    (t now : Int) : submitExam cat st u e a t now = (.serverError "Error submitting exam", st) :=
  rfl

theorem submitExam_effect (cat : Catalog) (st : Store) (u : Nat) (e : String) (a : AnswerMap)
    (t now : Int) : Effect st (submitExam cat st u e a t now).2 :=
  Effect.none

theorem autoSubmitExam_effect (cat : Catalog) (st : Store) (u : Nat) (e : String) (now : Int) :
    Effect st (autoSubmitExam cat st u e now).2 := by
  rw [autoSubmitExam_eq]
  exact Effect.none

/-- Every handler changes the store through one of the effects. -/
theorem handle_effect (cat : Catalog) (st : Store) (op : Op) :
    Effect st (handle cat st op).2 := by
  cases op with
  | startExam u e now => exact startExam_effect cat st u e now
  | saveExamProgress u e c a t now => exact saveExamProgress_effect st u e c a t now
  | saveAnswer u e q a => exact saveAnswer_effect st u e q a
  | markQuestion u e q => exact markQuestion_effect st u e q
  | clearAnswer u e q => exact clearAnswer_effect st u e q
  | submitExam u e a t now => exact submitExam_effect cat st u e a t now
  | autoSubmitExam u e now => exact autoSubmitExam_effect cat st u e now

theorem reachable_openUnique {cat : Catalog} {st : Store} (h : Reachable cat st) :
    OpenUnique st := by
  induction h with
  | empty => exact List.Pairwise.nil
  | step op _ ih => exact effect_openUnique (handle_effect cat _ op) ih

theorem reachable_allInProgress {cat : Catalog} {st : Store} (h : Reachable cat st) :
    AllInProgress st := by
  induction h with
  | empty => exact fun r hr => by simp [Store.empty] at hr
  | step op _ ih => exact effect_allInProgress (handle_effect cat _ op) ih

theorem reachable_idsFresh {cat : Catalog} {st : Store} (h : Reachable cat st) :
    IdsFresh st := by
  induction h with
  | empty => exact ⟨fun r hr => by simp [Store.empty] at hr, List.Pairwise.nil⟩
  | step op _ ih => exact effect_idsFresh (handle_effect cat _ op) ih

theorem updateFirst_id_self {this : Result} : ∀ (l : List Result),
    l.Pairwise (fun a b => a._id ≠ b._id) → this ∈ l →
      updateFirst (fun r => r._id == this._id) (fun _ => this) l = l
  | [], _, h => by simp at h
  | x :: xs, hp, h => by
    rw [List.pairwise_cons] at hp
    unfold updateFirst
    rcases List.mem_cons.1 h with h | h
    · subst h
      simp
    · have hne : x._id ≠ this._id := hp.1 this h
      have hb : ¬ ((x._id == this._id) = true) := by simpa using hne
      rw [if_neg hb, updateFirst_id_self xs hp.2 h]

/-- On a list without repeated ids, `save()` of a record that the list holds changes nothing. -/
theorem Result.save_of_mem {this : Result} {l : List Result}
    (hp : l.Pairwise (fun a b => a._id ≠ b._id)) (h : this ∈ l) : Result.save l this = l := by
  unfold Result.save
  have hany : l.any (fun r => r._id == this._id) = true :=
    List.any_eq_true.2 ⟨this, h, by simp⟩
  rw [if_pos hany, updateFirst_id_self l hp h]

theorem mem_updateFirst_of_find {p : Result → Bool} {f : Result → Result} {r : Result} :
    ∀ (l : List Result), l.find? p = some r → f r ∈ updateFirst p f l
  | [], h => by simp at h
  | x :: xs, h => by
    unfold updateFirst
    by_cases hp : p x = true
    · rw [List.find?_cons_of_pos _ hp] at h
      rw [if_pos hp]
      simp only [Option.some.injEq] at h
      rw [h]
      exact List.mem_cons_self _ _
    · rw [List.find?_cons_of_neg _ hp] at h
      rw [if_neg hp]
      exact List.mem_cons_of_mem _ (mem_updateFirst_of_find xs h)

/-- In a reachable store, `save()` after the mutation of the record that `findOne` returned
leaves the array as the mutation made it. -/
theorem save_found_record {cat : Catalog} {st : Store} (h : Reachable cat st)
    (q : ResultQuery) (f : Result → Result) (hid : ∀ r, (f r)._id = r._id) (r : Result)
    (hfind : Result.findOne st q = some r) :
    Result.save (st.update q f).results (f r) = (st.update q f).results := by
  refine Result.save_of_mem ?_ (mem_updateFirst_of_find _ hfind)
  refine pairwise_updateFirst (fun a r _ _ hR => ?_) (fun r b _ hR => ?_) _ (reachable_idsFresh h).2
  · rw [hid]
    exact hR
  · rw [hid]
    exact hR

/-- In a reachable store, `save()` of a record that `create` has just pushed, after a mutation
that keeps its `_id`, leaves the array as it is. -/
theorem save_created_record {cat : Catalog} {st : Store} (h : Reachable cat st) (r : Result)
    (hid : r._id = st.resultId) :
    Result.save (st.results ++ [r]) r = st.results ++ [r] := by
  refine Result.save_of_mem ?_ (by simp)
  rw [List.pairwise_append]
  refine ⟨(reachable_idsFresh h).2, List.pairwise_singleton _ _, ?_⟩
  intro a ha b hb
  rw [List.mem_singleton] at hb
  rw [hb, hid]
  exact Nat.ne_of_lt ((reachable_idsFresh h).1 a ha)

theorem reachable_run (cat : Catalog) : ∀ (ops : List Op) (st : Store),
    Reachable cat st → Reachable cat (run cat st ops)
  | [], _, h => h
  | op :: ops, _, h => reachable_run cat ops _ (Reachable.step op h)

theorem run_reachable (cat : Catalog) (ops : List Op) :
    Reachable cat (run cat Store.empty ops) :=
  reachable_run cat ops Store.empty Reachable.empty

theorem Exam.mem_createFrom {ex : Exam} : ∀ (ds : List (Int × ExamData)) (id : Nat),
    ex ∈ Exam.createFrom id ds → ∃ i now data, ex = Exam.new i now data
  | [], _, h => by simp [Exam.createFrom] at h
  | (now, data) :: rest, id, h => by
    simp only [Exam.createFrom, List.mem_cons] at h
    rcases h with h | h
    · exact ⟨id, now, data, h⟩
    · exact Exam.mem_createFrom rest (id + 1) h

theorem Exam.new_maxAttempts_pos (id : Nat) (now : Int) (data : ExamData) :
    1 ≤ (Exam.new id now data).maxAttempts := by
  show 1 ≤ natOr data.maxAttempts 1
  unfold natOr
  split
  · split <;> omega
  · omega

/-! ## C9 - C10: invariants of the reachable stores -/

/-- In the store reached from the empty store by any sequence of lifecycle requests, the attempts
stored under one user and one exam id (one spelling of it) include at most one open attempt. -/
theorem openAttempts_length_le_one (cat : Catalog) (ops : List Op) (user : Option Nat)
    (exam : Option String) :
    (openAttempts (run cat Store.empty ops) user exam).length ≤ 1 := by
  have hinv := reachable_openUnique (run_reachable cat ops)
  unfold openAttempts attemptsOf
  rw [List.filter_filter]
  apply length_filter_le_one
  refine hinv.imp ?_
  intro a b hR hab
  simp only [Bool.and_eq_true, beq_iff_eq] at hab
  obtain ⟨⟨ha, hau, hae⟩, hb, hbu, hbe⟩ := hab
  exact hR ⟨ha, hb, hau.trans hbu.symm, hae.trans hbe.symm⟩

/-- C9 (the code at the failing input): user `7` starts the exam `1` of the scenario twice, the
second time with the id spelled `01`.  Both ids name the exam, both requests are answered 201,
and the store then holds two attempts of the user for the exam with status `in_progress`. -/
theorem respelled_id_opens_second_attempt :
    Exam.findOne scenarioCatalog.exams "1" = some scenarioExam ∧
      Exam.findOne scenarioCatalog.exams "01" = some scenarioExam ∧
      (handle scenarioCatalog Store.empty (.startExam 7 "1" 1000)).1 = .started 1 1800 ∧
      (handle scenarioCatalog (run scenarioCatalog Store.empty [.startExam 7 "1" 1000])
        (.startExam 7 "01" 2000)).1 = .started 2 1800 ∧
      (run scenarioCatalog Store.empty respelledOps).results.map
          (fun r => (r._id, r.user, r.exam, r.status)) =
        [(1, some 7, some "1", "in_progress"), (2, some 7, some "01", "in_progress")] ∧
      ((attemptsFor (run scenarioCatalog Store.empty respelledOps) (some 7)
        scenarioExam).filter Result.isOpen).length = 2 := by
  decide!

/-- C10: in the store reached from the empty store by any sequence of lifecycle requests every
stored attempt has the status `in_progress`: no handler completes an attempt (`submitExam`
replies 500 and `autoSubmitExam` 404 on every request).  So for every user and exam the number of
attempts with status `completed` is `0`, and at most `exam.maxAttempts`. -/
theorem completed_attempts_le_maxAttempts (cat : Catalog) (ops : List Op) (user : Option Nat)
    (exam : Exam) :
    (∀ r ∈ (run cat Store.empty ops).results, r.status = "in_progress") ∧
      ((attemptsFor (run cat Store.empty ops) user exam).filter
        (fun r => r.status == "completed")).length = 0 ∧
      ((attemptsFor (run cat Store.empty ops) user exam).filter
        (fun r => r.status == "completed")).length ≤ exam.maxAttempts := by
  have hinv := reachable_allInProgress (run_reachable cat ops)
  have hnil : (attemptsFor (run cat Store.empty ops) user exam).filter
      (fun r => r.status == "completed") = [] := by
    rw [List.filter_eq_nil_iff]
    intro r hr
    have hs := hinv r (List.mem_of_mem_filter hr)
    simp [hs]
  exact ⟨hinv, by rw [hnil]; rfl, by rw [hnil]; exact Nat.zero_le _⟩

/-! ## C11 - C15: `startExam` -/

theorem Exam.findOne_ne_empty {exams : List Exam} {e : String} {exam : Exam}
    (h : Exam.findOne exams e = some exam) : e ≠ "" := by
  intro he
  simp [Exam.findOne, he] at h

theorem completedAttempts_le_countDocuments (st : Store) (u : Nat) (e : String) :
    (completedAttempts st (storedUser u) (some e)).length ≤
      Result.countDocuments st { user := u, exam := e, status := .is "completed" } := by
  unfold completedAttempts attemptsOf Result.countDocuments
  rw [List.filter_filter]
  apply List.Sublist.length_le
  apply List.monotone_filter_right
  intro r hr
  simp only [Bool.and_eq_true, beq_iff_eq] at hr
  obtain ⟨hs, hu, he⟩ := hr
  have hm : userMatches r u = true := userMatches_of_user hu
  simp [countMatches, hm, examMatches, he, hs]

/-- For an existing exam, when the number of completed attempts stored for the user under the
exam id of the request is at least `exam.maxAttempts`, `startExam` answers 403 and leaves the
attempt store unchanged. -/
theorem startExam_rejects_same_id (cat : Catalog) (st : Store) (u : Nat) (e : String)
    (now : Int) (exam : Exam) (hfind : Exam.findOne cat.exams e = some exam)
    (hmax : exam.maxAttempts ≤ (completedAttempts st (storedUser u) (some e)).length) :
    startExam cat st u e now = (.forbidden "Maximum attempts reached for this exam", st) := by
  have hcount := le_trans hmax (completedAttempts_le_countDocuments st u e)
  unfold startExam
  simp only [hfind]
  rw [if_pos hcount]

/-- C11 (the code at the failing input): the store holds one completed attempt of user `7` under
the exam id `1`, and the exam allows one attempt.  A start under the id `1` is answered 403; a
start under the id `01`, which names the same exam, is answered 201 and creates an attempt. -/
theorem respelled_id_passes_maxAttempts :
    completedStore.results.map (fun r => (r._id, r.user, r.exam, r.status)) =
        [(1, some 7, some "1", "completed")] ∧
      Exam.findOne scenarioCatalog.exams "01" = some scenarioExam ∧
      scenarioExam.maxAttempts = 1 ∧
      ((attemptsFor completedStore (some 7) scenarioExam).filter
        (fun r => r.status == "completed")).length = 1 ∧
      startExam scenarioCatalog completedStore 7 "1" 3000 =
        (.forbidden "Maximum attempts reached for this exam", completedStore) ∧
      (startExam scenarioCatalog completedStore 7 "01" 3000).1 = .started 2 1800 ∧
      (startExam scenarioCatalog completedStore 7 "01" 3000).2.results.map
          (fun r => (r._id, r.user, r.exam, r.status)) =
        [(1, some 7, some "1", "completed"), (2, some 7, some "01", "in_progress")] := by
  decide!

theorem startExam_of_open (cat : Catalog) (st : Store) (u : Nat) (e : String) (now : Int)
    (exam : Exam) (r : Result) (hfind : Exam.findOne cat.exams e = some exam)
    (hlt : Result.countDocuments st { user := u, exam := e, status := .is "completed" } <
      exam.maxAttempts)
    (hopen : Result.findOne st (openQuery u e) = some r) :
    startExam cat st u e now = (.resumed r._id r.status r.progress, st) := by
  unfold startExam
  simp only [hfind, hopen]
  rw [if_neg (Nat.not_le.2 hlt)]

theorem startExam_of_no_open (cat : Catalog) (st : Store) (u : Nat) (e : String) (now : Int)
    (exam : Exam) (hfind : Exam.findOne cat.exams e = some exam)
    (hlt : Result.countDocuments st { user := u, exam := e, status := .is "completed" } <
      exam.maxAttempts)
    (hnone : Result.findOne st (openQuery u e) = none) :
    ∃ r : Result,
      startExam cat st u e now =
        (.started r._id (exam.duration * 60),
          { results := st.results ++ [r], resultId := st.resultId + 1 }) ∧
      r._id = st.resultId ∧ r.user = storedUser u ∧ r.exam = some e ∧
      r.status = "in_progress" ∧ r.startedAt = now ∧ r.answers = [] ∧
      r.progress = some
        ⟨some 0, some [], none, some (exam.duration * 60)⟩ := by
  refine ⟨Result.new st.resultId now ⟨u, e, some "in_progress", some now,
    some ⟨some 0, some [], none, some (exam.duration * 60)⟩⟩, ?_, rfl, rfl, ?_, ?_, rfl, rfl,
    rfl⟩
  · unfold startExam
    simp only [hfind, hnone]
    rw [if_neg (Nat.not_le.2 hlt)]
    rfl
  · simp [Result.new, Exam.findOne_ne_empty hfind]
  · simp [Result.new, strOr]

/-- For an eligible exam (it exists and the completed attempts that `startExam` counts are fewer
than `maxAttempts`), two calls of `startExam` in a row with the same exam id reply with the same
attempt id, and the second call leaves the attempt store as the first call left it. -/
theorem startExam_twice_same_id (cat : Catalog) (st : Store) (u : Nat) (e : String)
    (now now' : Int) (exam : Exam) (hfind : Exam.findOne cat.exams e = some exam)
    (hlt : Result.countDocuments st { user := u, exam := e, status := .is "completed" } <
      exam.maxAttempts) :
    ∃ id : Nat, (startExam cat st u e now).1.resultId? = some id ∧
      (startExam cat (startExam cat st u e now).2 u e now').1.resultId? = some id ∧
      (startExam cat (startExam cat st u e now).2 u e now').2 =
        (startExam cat st u e now).2 := by
  cases hopen : Result.findOne st (openQuery u e) with
  | some r =>
    have h1 := startExam_of_open cat st u e now exam r hfind hlt hopen
    have h2 := startExam_of_open cat st u e now' exam r hfind hlt hopen
    refine ⟨r._id, ?_, ?_, ?_⟩ <;> simp [h1, h2, Reply.resultId?]
  | none =>
    obtain ⟨r, h1, hid, huser, hexam, hstatus, -, -, -⟩ :=
      startExam_of_no_open cat st u e now exam hfind hlt hopen
    have hcm : countMatches { user := u, exam := e, status := .is "completed" } r = false := by
      simp [countMatches, hstatus]
    have hlt' : Result.countDocuments { results := st.results ++ [r], resultId := st.resultId + 1 }
        { user := u, exam := e, status := .is "completed" } < exam.maxAttempts := by
      have : Result.countDocuments { results := st.results ++ [r], resultId := st.resultId + 1 }
          { user := u, exam := e, status := .is "completed" } =
          Result.countDocuments st { user := u, exam := e, status := .is "completed" } := by
        simp [Result.countDocuments, List.filter_append, hcm]
      rw [this]
      exact hlt
    have hopen' : Result.findOne { results := st.results ++ [r], resultId := st.resultId + 1 }
        (openQuery u e) = some r := by
      have hexam' : r.exam = if e = "" then none else some e := by
        rw [hexam, if_neg (Exam.findOne_ne_empty hfind)]
      have hm : findOneMatches (openQuery u e) r = true :=
        openQuery_matches huser hexam' (by simp [Result.isOpen, hstatus])
      have hnone : List.find? (findOneMatches (openQuery u e)) st.results = none := hopen
      simp [Result.findOne, List.find?_append, hnone, hm]
    have h2 := startExam_of_open cat _ u e now' exam r hfind hlt' hopen'
    refine ⟨r._id, ?_, ?_, ?_⟩
    · simp [h1, Reply.resultId?]
    · rw [h1]
      simp [h2, Reply.resultId?]
    · rw [h1]
      simp [h2]

/-- C12 (the code at the failing input): user `7` starts the exam `1` of the scenario and then,
in a row, starts it again with the id spelled `01`.  The first call replies with the attempt id
`1`, the second with the attempt id `2`, and the second call adds an attempt to the store.  With
the id spelled `1` both times, the second call resumes the attempt `1` and changes nothing. -/
theorem startExam_twice_respelled_id :
    Exam.findOne scenarioCatalog.exams "1" = Exam.findOne scenarioCatalog.exams "01" ∧
      (startExam scenarioCatalog Store.empty 7 "1" 1000).1.resultId? = some 1 ∧
      (startExam scenarioCatalog (startExam scenarioCatalog Store.empty 7 "1" 1000).2 7 "01"
        2000).1.resultId? = some 2 ∧
      (startExam scenarioCatalog Store.empty 7 "1" 1000).2.results.length = 1 ∧
      (startExam scenarioCatalog (startExam scenarioCatalog Store.empty 7 "1" 1000).2 7 "01"
        2000).2.results.length = 2 ∧
      (startExam scenarioCatalog (startExam scenarioCatalog Store.empty 7 "1" 1000).2 7 "1"
        2000).1.resultId? = some 1 ∧
      (startExam scenarioCatalog (startExam scenarioCatalog Store.empty 7 "1" 1000).2 7 "1"
        2000).2 = (startExam scenarioCatalog Store.empty 7 "1" 1000).2 := by
  decide!

/-- C15: for an eligible exam and a user without open attempt, `startExam` adds exactly one
attempt at the end of the store and leaves the stored attempts as they are; the new attempt has
the user and the exam of the request, status `in_progress`, start time `now`, draft
`currentQuestion = 0`, an empty draft answer map and draft
`timeRemaining = exam.duration × 60`; the reply carries its id and
`timeRemaining = exam.duration × 60`. -/
theorem startExam_creates_attempt (cat : Catalog) (st : Store) (u : Nat) (e : String)
    (now : Int) (exam : Exam) (hfind : Exam.findOne cat.exams e = some exam)
    (hlt : Result.countDocuments st { user := u, exam := e, status := .is "completed" } <
      exam.maxAttempts)
    (hnone : Result.findOne st (openQuery u e) = none) :
    ∃ (r : Result) (p : Progress),
      startExam cat st u e now =
        (.started r._id (exam.duration * 60),
          { results := st.results ++ [r], resultId := st.resultId + 1 }) ∧
      r._id = st.resultId ∧ r.user = storedUser u ∧ r.exam = some e ∧
      r.status = "in_progress" ∧ r.startedAt = now ∧ r.progress = some p ∧
      p.currentQuestion = some 0 ∧ p.userAnswers = some [] ∧
      p.timeRemaining = some (exam.duration * 60) := by
  obtain ⟨r, h1, hid, huser, hexam, hstatus, hstart, -, hp⟩ :=
    startExam_of_no_open cat st u e now exam hfind hlt hnone
  exact ⟨r, _, h1, hid, huser, hexam, hstatus, hstart, hp, rfl, rfl, rfl⟩

theorem startExam_creates_attempt_witness :
    Exam.findOne scenarioCatalog.exams "1" = some scenarioExam ∧
    Result.countDocuments Store.empty { user := 7, exam := "1", status := .is "completed" } <
      scenarioExam.maxAttempts ∧
    Result.findOne Store.empty (openQuery 7 "1") = none ∧
    ∃ (r : Result) (p : Progress),
      startExam scenarioCatalog Store.empty 7 "1" 1000 =
        (.started r._id (scenarioExam.duration * 60),
          { results := Store.empty.results ++ [r], resultId := Store.empty.resultId + 1 }) ∧
      r._id = Store.empty.resultId ∧ r.user = storedUser 7 ∧ r.exam = some "1" ∧
      r.status = "in_progress" ∧ r.startedAt = 1000 ∧ r.progress = some p ∧
      p.currentQuestion = some 0 ∧ p.userAnswers = some [] ∧
      p.timeRemaining = some (scenarioExam.duration * 60) :=
  ⟨by decide!, by decide!, by decide!,
    startExam_creates_attempt scenarioCatalog Store.empty 7 "1" 1000 scenarioExam
      (by decide!) (by decide!) (by decide!)⟩

theorem startExam_unknown_exam (cat : Catalog) (st : Store) (u : Nat) (e : String) (now : Int)
    (hfind : Exam.findOne cat.exams e = none) :
    startExam cat st u e now = (.notFound "Exam not found or not active", st) := by
  unfold startExam
  simp only [hfind]

/-- C13 (the code at the failing input): the only exam of the catalog has the default status
`draft` and a window from `5000` to `6000`; at the time `9000` the call `startExam` of user `7`
is not answered 404: it replies 201 with a new attempt and stores it. -/
theorem startExam_ignores_status_and_window :
    (Exam.findOne draftCatalog.exams "1").map (fun x => (x.status, x.startDate, x.endDate)) =
        some ("draft", 5000, 6000) ∧
      (startExam draftCatalog Store.empty 7 "1" 9000).1 = .started 1 1800 ∧
      (startExam draftCatalog Store.empty 7 "1" 9000).2.results.map
          (fun r => (r._id, r.user, r.exam, r.status)) =
        [(1, some 7, some "1", "in_progress")] := by
  decide!

/-- C14 (the code at the failing input): the only exam of the catalog is restricted to the user
`5`; the call `startExam` of user `7` is not rejected: it replies 201 with a new attempt and
stores it. -/
theorem startExam_ignores_allowedUsers :
    (Exam.findOne restrictedCatalog.exams "1").map (fun x => x.allowedUsers) = some [5] ∧
      (startExam restrictedCatalog Store.empty 7 "1" 1000).1 = .started 1 1800 ∧
      (startExam restrictedCatalog Store.empty 7 "1" 1000).2.results.map
          (fun r => (r._id, r.user, r.exam, r.status)) =
        [(1, some 7, some "1", "in_progress")] := by
  decide!

/-! ## C16 - C18: `submitExam` -/

theorem length_updateFirst (p : Result → Bool) (f : Result → Result) :
    ∀ l : List Result, (updateFirst p f l).length = l.length
  | [] => rfl
  | x :: xs => by
    unfold updateFirst
    split
    · rfl
    · simp [length_updateFirst p f xs]

theorem updateFirst_updateFirst (p : Result → Bool) (f g : Result → Result)
    (hp : ∀ x, p (f x) = p x) :
    ∀ l : List Result, updateFirst p g (updateFirst p f l) = updateFirst p (fun x => g (f x)) l
  | [] => rfl
  | x :: xs => by
    by_cases hx : p x = true
    · have hfx : p (f x) = true := by rw [hp, hx]
      simp [updateFirst, hx, hfx]
    · simp [updateFirst, hx, updateFirst_updateFirst p f g hp xs]

theorem updateFirst_append_of_none (p : Result → Bool) (g : Result → Result) (r : Result)
    (hr : p r = true) :
    ∀ l : List Result, l.find? p = none → updateFirst p g (l ++ [r]) = l ++ [g r]
  | [], _ => by simp [updateFirst, hr]
  | x :: xs, h => by
    have hx : ¬ (p x = true) := by
      intro hx
      rw [List.find?_cons_of_pos _ hx] at h
      exact absurd h (by simp)
    rw [List.find?_cons_of_neg _ hx] at h
    simp [updateFirst, hx, updateFirst_append_of_none p g r hr xs h]

theorem map_updateFirst_congr {β : Type} (strip : Result → β) (p : Result → Bool)
    (f g : Result → Result) (h : ∀ x, strip (g x) = strip (f x)) :
    ∀ l : List Result, (updateFirst p g l).map strip = (updateFirst p f l).map strip
  | [] => rfl
  | x :: xs => by
    by_cases hx : p x = true
    · simp [updateFirst, hx, h]
    · simp [updateFirst, hx, map_updateFirst_congr strip p f g h xs]

theorem getElem?_updateFirst_of_not (p : Result → Bool) (f : Result → Result) (r : Result)
    (hr : p r = false) :
    ∀ (l : List Result) (i : Nat), l[i]? = some r → (updateFirst p f l)[i]? = some r
  | [], _, h => by simp at h
  | x :: xs, 0, h => by
    simp only [List.getElem?_cons_zero, Option.some.injEq] at h
    subst h
    simp [updateFirst, hr]
  | x :: xs, i + 1, h => by
    simp only [List.getElem?_cons_succ] at h
    unfold updateFirst
    split
    · simpa using h
    · simpa using getElem?_updateFirst_of_not p f r hr xs i h

theorem findOne_some_matches {st : Store} {q : ResultQuery} {r : Result}
    (h : Result.findOne st q = some r) : r ∈ st.results ∧ findOneMatches q r = true :=
  ⟨List.mem_of_find?_eq_some h, List.find?_some h⟩

/-- C16 (the code at the failing input): in the store of the scenario user `7` has an attempt
for the exam `1` with status `in_progress`.  `submitExam` for that user and exam with the fully
correct answers replies 500 and leaves the store as it is: the attempt stays `in_progress`
without scoring.  On the empty store it replies 500 as well and creates no attempt.  After the
whole run of the scenario, with its two submits, the attempt is still `in_progress`. -/
theorem submitExam_replies_server_error :
    scenarioStarted.results.map (fun r => (r._id, r.user, r.exam, r.status)) =
        [(1, some 7, some "1", "in_progress")] ∧
      Exam.findById scenarioCatalog.exams "1" = some scenarioExam ∧
      submitExam scenarioCatalog scenarioStarted 7 "1" scenarioAnswers 30 9000 =
        (.serverError "Error submitting exam", scenarioStarted) ∧
      submitExam scenarioCatalog Store.empty 7 "1" scenarioAnswers 30 9000 =
        (.serverError "Error submitting exam", Store.empty) ∧
      (run scenarioCatalog Store.empty scenarioOps).results.map
          (fun r => (r._id, r.user, r.exam, r.status)) =
        [(1, some 7, some "1", "in_progress")] :=
  ⟨by decide!, by decide!, rfl, rfl, by decide!⟩

/-- Scoring again after the loop has sorted `question.correctAnswers` and the submitted array in
place gives the same `isCorrect` and the same marks. -/
theorem scoreQuestion_after_sort (q : Question) (a : JsVal) :
    (scoreQuestion { q with correctAnswers := jsSort q.correctAnswers }
        (storedAnswer q a)).isCorrect = (scoreQuestion q a).isCorrect ∧
      (scoreQuestion { q with correctAnswers := jsSort q.correctAnswers }
        (storedAnswer q a)).marksObtained = (scoreQuestion q a).marksObtained := by
  have hmem : ∀ s : String, s ∈ jsSort q.correctAnswers ↔ s ∈ q.correctAnswers :=
    fun s => (jsSort_perm q.correctAnswers).mem_iff
  have hss : jsSort (jsSort q.correctAnswers) = jsSort q.correctAnswers :=
    (jsSort_eq_iff_perm _ _).2 (jsSort_perm _)
  have hc : isCorrectOf { q with correctAnswers := jsSort q.correctAnswers } (storedAnswer q a) =
      isCorrectOf q a := by
    by_cases h1 : q.type = "mcq"
    · have h2 : ¬ (q.type = "checkbox") := by rw [h1]; decide
      cases a <;> simp [isCorrectOf, storedAnswer, h1, h2, includes, JsVal.truthy, hmem]
    · by_cases h2 : q.type = "checkbox"
      · cases a with
        | arr xs =>
          have hxs : jsSort (jsSort xs) = jsSort xs := (jsSort_eq_iff_perm _ _).2 (jsSort_perm _)
          simp [isCorrectOf, storedAnswer, h1, h2, JsVal.truthy, JsVal.toArray, hss, hxs]
        | _ => simp [isCorrectOf, storedAnswer, h1, h2, JsVal.truthy, JsVal.toArray, hss]
      · cases a <;> simp [isCorrectOf, storedAnswer, h1, h2, JsVal.truthy]
  refine ⟨hc, ?_⟩
  show marksObtainedOf _ _ = marksObtainedOf _ _
  rw [marksObtainedOf_eq, marksObtainedOf_eq, hc]

theorem find?_updateFirst (p : Result → Bool) (f : Result → Result)
    (hp : ∀ x, p (f x) = p x) :
    ∀ l : List Result, (updateFirst p f l).find? p = (l.find? p).map f
  | [] => rfl
  | x :: xs => by
    by_cases hx : p x = true
    · have hfx : p (f x) = true := by rw [hp, hx]
      simp [updateFirst, hx, hfx]
    · have hx' : p x = false := by simpa using hx
      simp [updateFirst, hx', find?_updateFirst p f hp xs]

/-- C17: `submitExam` performed a second time with the same user, exam, answer map and
`timeTaken` gives the same reply and leaves the attempt store as the first call left it: the
same number of stored attempts, each with the same `answers`, `totalMarksObtained` and
`percentage` (both calls reply 500 and write nothing, so no marks are counted twice).  The
scoring of a question is a function of the question and the answer, and scoring again after the
loop has sorted the arrays in place gives the same `isCorrect` and the same marks. -/
theorem submitExam_twice (cat : Catalog) (st : Store) (u : Nat) (e : String)
    (answers : AnswerMap) (t now now' : Int) :
    (submitExam cat (submitExam cat st u e answers t now).2 u e answers t now').2 =
        (submitExam cat st u e answers t now).2 ∧
      (submitExam cat (submitExam cat st u e answers t now).2 u e answers t now').2.results.map
          Result.scoring =
        (submitExam cat st u e answers t now).2.results.map Result.scoring ∧
      (submitExam cat (submitExam cat st u e answers t now).2 u e answers t
          now').2.results.length =
        (submitExam cat st u e answers t now).2.results.length ∧
      (submitExam cat (submitExam cat st u e answers t now).2 u e answers t now').1 =
        (submitExam cat st u e answers t now).1 ∧
      (∀ (q : Question) (a : JsVal),
        (scoreQuestion { q with correctAnswers := jsSort q.correctAnswers }
            (storedAnswer q a)).isCorrect = (scoreQuestion q a).isCorrect ∧
          (scoreQuestion { q with correctAnswers := jsSort q.correctAnswers }
            (storedAnswer q a)).marksObtained = (scoreQuestion q a).marksObtained) :=
  ⟨rfl, rfl, rfl, rfl, scoreQuestion_after_sort⟩

theorem keep_update {st : Store} {q : ResultQuery} {i : Nat} {r : Result}
    (f : Result → Result) (hq : findOneMatches q r = false) (hr : st.results[i]? = some r) :
    (st.update q f).results[i]? = some r :=
  getElem?_updateFirst_of_not _ f r hq st.results i hr

theorem keep_append {l : List Result} {i : Nat} {r : Result} (x : Result)
    (hr : l[i]? = some r) : (l ++ [x])[i]? = some r := by
  have hi : i < l.length := by
    by_contra hge
    rw [List.getElem?_eq_none (Nat.le_of_not_lt hge)] at hr
    exact absurd hr (by simp)
  rw [List.getElem?_append_left hi]
  exact hr

theorem openQuery_not_completed {r : Result} (u : Nat) (e : String) (hc : r.status = "completed") :
    findOneMatches (openQuery u e) r = false := by
  simp [findOneMatches, openQuery, hc]

/-- A stored attempt with status `completed` is left as it is, at its place in the store, by
every lifecycle request. -/
theorem handle_keeps_completed (cat : Catalog) (st : Store) (i : Nat) (r : Result)
    (hr : st.results[i]? = some r) (hc : r.status = "completed") (op : Op) :
    (handle cat st op).2.results[i]? = some r := by
  cases op with
  | startExam u e now =>
    simp only [handle]
    unfold startExam
    split
    · exact hr
    · simp only
      split
      · exact hr
      · split
        · exact hr
        · exact keep_append _ hr
  | saveExamProgress u e c a t now =>
    simp only [handle]
    unfold saveExamProgress
    simp only
    split
    · exact keep_update _ (openQuery_not_completed u e hc) hr
    · exact keep_append _ hr
  | saveAnswer u e q a =>
    simp only [handle]
    unfold saveAnswer
    split
    · exact hr
    · split
      · exact hr
      · exact keep_update _ (openQuery_not_completed u e hc) hr
  | markQuestion u e q =>
    simp only [handle]
    unfold markQuestion
    split
    · exact hr
    · split
      · exact hr
      · exact keep_update _ (openQuery_not_completed u e hc) hr
  | clearAnswer u e q =>
    simp only [handle]
    unfold clearAnswer
    split
    · exact hr
    · split
      · exact hr
      · split
        · exact hr
        · split
          · exact keep_update _ (openQuery_not_completed u e hc) hr
          · exact hr
  | submitExam u e a t now => exact hr
  | autoSubmitExam u e now =>
    simp only [handle, autoSubmitExam_eq]
    exact hr

theorem run_keeps_completed (cat : Catalog) (i : Nat) (r : Result)
    (hc : r.status = "completed") : ∀ (ops : List Op) (st : Store),
    st.results[i]? = some r → (run cat st ops).results[i]? = some r
  | [], _, hr => hr
  | op :: ops, st, hr =>
    run_keeps_completed cat i r hc ops _ (handle_keeps_completed cat st i r hr hc op)

/-- C18: a stored attempt with status `completed` is left as it is, at its place in the store
and in every field (so with its `answers`, `totalMarksObtained` and `percentage`), by every
sequence of lifecycle requests; and a `submitExam`, whatever attempt it is for, is answered 500
and leaves the whole store as it was. -/
theorem completed_attempt_never_changed (cat : Catalog) (st : Store) (i : Nat) (r : Result)
    (hr : st.results[i]? = some r) (hc : r.status = "completed") :
    (∀ ops : List Op, (run cat st ops).results[i]? = some r) ∧
      (∀ op : Op, (handle cat st op).2.results[i]? = some r) ∧
      (∀ (u : Nat) (e : String) (answers : AnswerMap) (t now : Int),
        handle cat st (.submitExam u e answers t now) =
          (.serverError "Error submitting exam", st)) :=
  ⟨fun ops => run_keeps_completed cat i r hc ops st hr,
    fun op => handle_keeps_completed cat st i r hr hc op, fun _ _ _ _ _ => rfl⟩

theorem completed_attempt_never_changed_witness :
    completedStore.results[0]? = some completedAttempt ∧
    completedAttempt.status = "completed" ∧
    (∀ ops : List Op, (run scenarioCatalog completedStore ops).results[0]? =
      some completedAttempt) ∧
    (∀ op : Op, (handle scenarioCatalog completedStore op).2.results[0]? =
      some completedAttempt) ∧
    (∀ (u : Nat) (e : String) (answers : AnswerMap) (t now : Int),
      handle scenarioCatalog completedStore (.submitExam u e answers t now) =
        (.serverError "Error submitting exam", completedStore)) :=
  ⟨by decide!, by decide!,
    completed_attempt_never_changed scenarioCatalog completedStore 0 completedAttempt
      (by decide!) (by decide!)⟩

/-! ## C19 - C20: `autoSubmitExam` -/

/-- C19: `autoSubmitExam` answers 404 (no active session) and leaves the attempt store, with all
stored scoring, as it is, for every user and exam: whether or not an attempt with status
`in_progress` is stored, and so in particular when none is, as when the only attempt is already
`completed`. -/
theorem autoSubmitExam_not_found (cat : Catalog) (st : Store) (u : Nat) (e : String) (now : Int) :
    autoSubmitExam cat st u e now = (.notFound "No active exam session found", st) := by
  unfold autoSubmitExam
  simp only [findOne_statusIs_none]

/-- C20 (the code at the failing input): after `startExam` the store of the scenario holds an
attempt of user `7` for exam `1` with status `in_progress`; `autoSubmitExam` for that user and
exam answers 404 and leaves the store as it is. -/
theorem autoSubmitExam_misses_in_progress_attempt :
    scenarioStarted.results.map (fun r => (r.user, r.exam, r.status)) =
        [(some 7, some "1", "in_progress")] ∧
      Exam.findById scenarioCatalog.exams "1" = some scenarioExam ∧
      autoSubmitExam scenarioCatalog scenarioStarted 7 "1" 5000 =
        (.notFound "No active exam session found", scenarioStarted) := by
  decide!

/-! ## C21: the two scoring loops -/

theorem autoSubmitBody_eq (userAnswers : Option AnswerMap) (total : ℚ) (q : Question) :
    autoSubmitBody userAnswers total q =
      (total + marksObtainedOf q (match userAnswers with
          | some m => m.get q._id
          | none => .null),
        scoreQuestion q (match userAnswers with
          | some m => m.get q._id
          | none => .null)) := by
  unfold autoSubmitBody
  simp only
  generalize (match userAnswers with
    | some m => m.get q._id
    | none => JsVal.null) = v
  by_cases ht : v.truthy = true
  · simp [scoreQuestion, marksObtainedOf, isCorrectOf, ht]
  · have hf : v.truthy = false := by simpa using ht
    have hs : storedAnswer q v = v := by
      cases v <;> simp [storedAnswer, JsVal.truthy] at hf ⊢
    simp [scoreQuestion, marksObtainedOf, isCorrectOf, hf, hs]

theorem autoSubmitLoopFrom_eq (userAnswers : Option AnswerMap) :
    ∀ (qs : List Question) (total : ℚ) (detailed : List DetailedAnswer),
      autoSubmitLoopFrom userAnswers total detailed qs =
        qs.foldl (scoreStep (fun k => match userAnswers with
          | some m => m.get k
          | none => .null)) (total, detailed)
  | [], _, _ => rfl
  | q :: qs, total, detailed => by
    rw [autoSubmitLoopFrom, autoSubmitLoopFrom_eq userAnswers qs, List.foldl_cons, scoreStep_eq,
      autoSubmitBody_eq]

/-- The loop of `autoSubmitExam`, read statement by statement, is the loop that the handler
`autoSubmitExam` of the embedding runs. -/
theorem autoSubmitLoop_eq_autoSubmitScore (qs : List Question) (userAnswers : Option AnswerMap) :
    autoSubmitLoop qs userAnswers = autoSubmitScore qs userAnswers := by
  unfold autoSubmitLoop autoSubmitScore scoreLoop
  exact autoSubmitLoopFrom_eq userAnswers qs 0 []

/-- C21: for every question list, answer map and exam, the scoring loop of `autoSubmitExam` yields
the same detailed answers and the same `totalMarksObtained` as the scoring loop of `submitExam`
on the same questions and answers, hence the same percentage and the same `passed` flag; with no
draft answer map at all it agrees with `submitExam` on the empty map in `isCorrect` and
`marksObtained`. -/
theorem autoSubmit_scoring_eq_submit (exam : Exam) (qs : List Question) (answers : AnswerMap)
    (t : Int) (sa : Option Int) :
    autoSubmitLoop qs (some answers) = submitScore qs answers ∧
      percentageOf (autoSubmitLoop qs (some answers)).1 exam.totalMarks =
        (submitSummary exam qs answers t sa).score ∧
      (percentageOf (autoSubmitLoop qs (some answers)).1 exam.totalMarks).ge exam.passingMarks =
        (submitSummary exam qs answers t sa).passed ∧
      (autoSubmitLoop qs none).1 = (submitScore qs []).1 ∧
      (autoSubmitLoop qs none).2.map (fun d => (d.question, d.isCorrect, d.marksObtained)) =
        (submitScore qs []).2.map (fun d => (d.question, d.isCorrect, d.marksObtained)) := by
  have h1 : autoSubmitLoop qs (some answers) = submitScore qs answers := by
    rw [autoSubmitLoop_eq_autoSubmitScore]
    rfl
  refine ⟨h1, ?_, ?_, ?_, ?_⟩
  · rw [h1]
    rfl
  · rw [h1]
    rfl
  · rw [autoSubmitLoop_eq_autoSubmitScore]
    simp only [autoSubmitScore, submitScore, scoreLoop_fst]
    congr 1
  · rw [autoSubmitLoop_eq_autoSubmitScore]
    simp only [autoSubmitScore, submitScore, scoreLoop_snd, List.map_map]
    apply List.map_congr_left
    intro q _
    simp [scoreQuestion, isCorrectOf, marksObtainedOf, AnswerMap.get, JsVal.truthy]

/-! ## C29: the statistics of `getExamResults` -/

theorem storedAnswer_truthy (q : Question) (v : JsVal) :
    (storedAnswer q v).truthy = v.truthy := by
  cases v with
  | arr xs =>
    by_cases h : q.type = "checkbox" <;> simp [storedAnswer, JsVal.truthy, h]
  | _ => simp [storedAnswer, JsVal.truthy]

theorem scoreLoop_correct_truthy (lookup : Nat → JsVal) (qs : List Question) :
    ∀ d ∈ (scoreLoop lookup qs).2, d.isCorrect = true → d.answer.truthy = true := by
  intro d hd hc
  rw [scoreLoop_snd, List.mem_map] at hd
  obtain ⟨q, _, rfl⟩ := hd
  show (storedAnswer q (lookup q._id)).truthy = true
  rw [storedAnswer_truthy]
  exact (isCorrectOf_truthy hc).1

theorem statistics_partition_of : ∀ (l : List DetailedAnswer),
    (∀ d ∈ l, d.isCorrect = true → d.answer.truthy = true) →
      (statistics l).correctAnswers + (statistics l).incorrectAnswers +
        (statistics l).unattempted = (statistics l).totalQuestions
  | [], _ => rfl
  | d :: l, h => by
    have ih := statistics_partition_of l (fun x hx => h x (List.mem_cons_of_mem _ hx))
    have hd := h d (List.mem_cons_self _ _)
    simp only [statistics] at ih ⊢
    cases hc : d.isCorrect <;> cases ht : d.answer.truthy
    · simp [List.filter_cons, countsCorrect, countsIncorrect, countsUnattempted, hc, ht]
      omega
    · simp [List.filter_cons, countsCorrect, countsIncorrect, countsUnattempted, hc, ht]
      omega
    · rw [hc, ht] at hd
      exact absurd (hd rfl) (by decide)
    · simp [List.filter_cons, countsCorrect, countsIncorrect, countsUnattempted, hc, ht]
      omega

theorem counts_exclusive (d : DetailedAnswer) (h : d.isCorrect = true → d.answer.truthy = true) :
    (countsCorrect d && countsIncorrect d) = false ∧
      (countsCorrect d && countsUnattempted d) = false ∧
      (countsIncorrect d && countsUnattempted d) = false ∧
      (countsCorrect d || countsIncorrect d || countsUnattempted d) = true := by
  cases hc : d.isCorrect <;> cases ht : d.answer.truthy <;>
    simp [countsCorrect, countsIncorrect, countsUnattempted, hc, ht]
  rw [hc, ht] at h
  exact absurd (h rfl) (by decide)

/-- C29: on the answers list that the scoring loop of `submitExam` or of `autoSubmitExam`
produces, the statistics of `getExamResults` partition the questions:
`correctAnswers + incorrectAnswers + unattempted = totalQuestions`, and every answer is counted
in exactly one of the three groups. -/
theorem statistics_partition (qs : List Question) (answers : AnswerMap)
    (userAnswers : Option AnswerMap) :
    ((statistics (submitScore qs answers).2).correctAnswers +
        (statistics (submitScore qs answers).2).incorrectAnswers +
        (statistics (submitScore qs answers).2).unattempted =
          (statistics (submitScore qs answers).2).totalQuestions ∧
      (statistics (submitScore qs answers).2).totalQuestions = qs.length ∧
      ∀ d ∈ (submitScore qs answers).2,
        (countsCorrect d && countsIncorrect d) = false ∧
        (countsCorrect d && countsUnattempted d) = false ∧
        (countsIncorrect d && countsUnattempted d) = false ∧
        (countsCorrect d || countsIncorrect d || countsUnattempted d) = true) ∧
    ((statistics (autoSubmitLoop qs userAnswers).2).correctAnswers +
        (statistics (autoSubmitLoop qs userAnswers).2).incorrectAnswers +
        (statistics (autoSubmitLoop qs userAnswers).2).unattempted =
          (statistics (autoSubmitLoop qs userAnswers).2).totalQuestions ∧
      (statistics (autoSubmitLoop qs userAnswers).2).totalQuestions = qs.length ∧
      ∀ d ∈ (autoSubmitLoop qs userAnswers).2,
        (countsCorrect d && countsIncorrect d) = false ∧
        (countsCorrect d && countsUnattempted d) = false ∧
        (countsIncorrect d && countsUnattempted d) = false ∧
        (countsCorrect d || countsIncorrect d || countsUnattempted d) = true) := by
  have key : ∀ lookup : Nat → JsVal,
      (statistics (scoreLoop lookup qs).2).correctAnswers +
        (statistics (scoreLoop lookup qs).2).incorrectAnswers +
        (statistics (scoreLoop lookup qs).2).unattempted =
          (statistics (scoreLoop lookup qs).2).totalQuestions ∧
      (statistics (scoreLoop lookup qs).2).totalQuestions = qs.length ∧
      ∀ d ∈ (scoreLoop lookup qs).2,
        (countsCorrect d && countsIncorrect d) = false ∧
        (countsCorrect d && countsUnattempted d) = false ∧
        (countsIncorrect d && countsUnattempted d) = false ∧
        (countsCorrect d || countsIncorrect d || countsUnattempted d) = true := by
    intro lookup
    refine ⟨statistics_partition_of _ (scoreLoop_correct_truthy lookup qs), ?_, ?_⟩
    · simp [statistics, scoreLoop_snd]
    · intro d hd
      exact counts_exclusive d (scoreLoop_correct_truthy lookup qs d hd)
  refine ⟨key _, ?_⟩
  rw [autoSubmitLoop_eq_autoSubmitScore]
  exact key _

/-! ## C22, C25, C28: the draft of the selected attempt -/

/-- C22 (as stated, refuted): on the empty store user `7` has no open attempt for exam `1`, and
`saveExamProgress` does not fail: it replies with success and the store then holds a new attempt
of the user and exam with status `in_progress`. -/
theorem saveExamProgress_without_open_attempt_succeeds :
    Result.findOne Store.empty (openQuery 7 "1") = none ∧
      openAttempts Store.empty (some 7) (some "1") = [] ∧
      (saveExamProgress Store.empty 7 "1" (some 1) (some []) (some 60) 2000).1 =
        .success "Progress saved successfully" ∧
      (saveExamProgress Store.empty 7 "1" (some 1) (some []) (some 60) 2000).2.results.map
          (fun r => (r._id, r.user, r.exam, r.status)) =
        [(1, some 7, some "1", "in_progress")] := by
  decide!

/-- C22 (amended): for a user and exam with no open attempt, `saveExamProgress` does not fail: it
creates one new attempt of the user and exam with status `in_progress`, whose draft is the
submitted progress (current question, answer map and remaining time, without marked list),
appends it to the store, leaves the stored attempts as they are, and replies with success. -/
theorem saveExamProgress_creates_attempt (st : Store) (u : Nat) (e : String) (c : Option Nat)
    (a : Option AnswerMap) (t : Option Nat) (now : Int)
    (hnone : Result.findOne st (openQuery u e) = none) :
    ∃ r : Result,
      saveExamProgress st u e c a t now =
        (.success "Progress saved successfully",
          { results := st.results ++ [r], resultId := st.resultId + 1 }) ∧
      r._id = st.resultId ∧ r.user = storedUser u ∧ r.exam = storedExam e ∧
      r.status = "in_progress" ∧ r.answers = [] ∧ r.progress = some ⟨c, a, none, t⟩ := by
  refine ⟨{ Result.new st.resultId now ⟨u, e, some "in_progress", none, none⟩ with
    progress := some ⟨c, a, none, t⟩ }, ?_, rfl, rfl, rfl, ?_, rfl, rfl⟩
  · unfold saveExamProgress
    simp only [hnone]
    rfl
  · simp [Result.new, strOr]

theorem saveExamProgress_creates_attempt_witness :
    Result.findOne Store.empty (openQuery 7 "1") = none ∧
    ∃ r : Result,
      saveExamProgress Store.empty 7 "1" (some 1) (some []) (some 60) 2000 =
        (.success "Progress saved successfully",
          { results := Store.empty.results ++ [r], resultId := Store.empty.resultId + 1 }) ∧
      r._id = Store.empty.resultId ∧ r.user = storedUser 7 ∧ r.exam = storedExam "1" ∧
      r.status = "in_progress" ∧ r.answers = [] ∧
      r.progress = some ⟨some 1, some [], none, some 60⟩ :=
  ⟨by decide,
    saveExamProgress_creates_attempt Store.empty 7 "1" (some 1) (some []) (some 60) 2000
      (by decide)⟩

/-- C25 (the code at the failing input): the draft answer map of user `7` holds the empty string
for question `1`; `clearAnswer` for that question replies with success and leaves the store as it
is, so the map still has the entry. -/
theorem clearAnswer_keeps_falsy_entry :
    draftAnswersOf scenarioEmptyAnswer 7 "1" = some [(1, .str "")] ∧
      clearAnswer scenarioEmptyAnswer 7 "1" 1 =
        (.success "Answer cleared successfully", scenarioEmptyAnswer) ∧
      draftAnswersOf (clearAnswer scenarioEmptyAnswer 7 "1" 1).2 7 "1" = some [(1, .str "")] := by
  decide!

/-- C28 (the code at the failing input): user `7` has marked question `2`; after
`saveExamProgress` the progress of the attempt has no marked list, and question `2` is no longer
marked. -/
theorem saveExamProgress_drops_marked_questions :
    markedOf scenarioMarked 7 "1" = [2] ∧
      (saveExamProgress scenarioMarked 7 "1" (some 1) (some []) (some 60) 2000).1 =
        .success "Progress saved successfully" ∧
      markedOf (saveExamProgress scenarioMarked 7 "1" (some 1) (some []) (some 60) 2000).2 7 "1" =
        [] ∧
      (saveExamProgress scenarioMarked 7 "1" (some 1) (some []) (some 60) 2000).2.results.map
          (fun r => r.progress.map (fun p => p.markedQuestions)) = [some none] := by
  decide!

/-! ## C30, C23, C24: the draft of an open attempt -/

theorem forall_mem_updateFirst {P : Result → Prop} {p : Result → Bool} {f : Result → Result}
    {l : List Result} (h : ∀ r ∈ l, P r) (hf : ∀ r, P r → P (f r)) :
    ∀ r ∈ updateFirst p f l, P r := by
  intro r hr
  rcases mem_updateFirst l hr with hr | ⟨x, hx, -, rfl⟩
  · exact h r hr
  · exact hf x (h x hx)

theorem draftOk_update {st : Store} (q : ResultQuery) (f : Result → Result)
    (h : DraftOk st) (hf : ∀ r, r.draftOk → (f r).draftOk) : DraftOk (st.update q f) :=
  forall_mem_updateFirst h hf

theorem draftOk_append {st : Store} (r : Result) (n : Nat) (h : DraftOk st) (hr : r.draftOk) :
    DraftOk { results := st.results ++ [r], resultId := n } := by
  intro x hx
  rcases List.mem_append.1 hx with hx | hx
  · exact h x hx
  · rw [List.mem_singleton] at hx
    rw [hx]
    exact hr

theorem toggleMark_nodup {m : List Nat} (q : Nat) (h : m.Nodup) : (toggleMark m q).1.Nodup := by
  unfold toggleMark
  split
  · exact h.erase q
  · rename_i hq
    rw [List.nodup_append]
    refine ⟨h, List.nodup_singleton q, ?_⟩
    intro a ha hb
    rw [List.mem_singleton] at hb
    exact hq (hb ▸ ha)

theorem draftOk_setProgress (r : Result) (p : Progress) (hp : p.markedQuestions = none) :
    ({ r with progress := some p } : Result).draftOk :=
  ⟨fun _ => rfl, by simp [Result.marked, hp]⟩

theorem draftOk_mapProgress (r : Result) (g : Progress → Progress)
    (hg : ∀ p : Progress, (p.markedQuestions.getD []).Nodup →
      ((g p).markedQuestions.getD []).Nodup)
    (h : r.draftOk) : ({ r with progress := r.progress.map g } : Result).draftOk := by
  refine ⟨fun ho => ?_, ?_⟩
  · have := h.1 ho
    simpa using this
  · have hm := h.2
    cases hp : r.progress with
    | none => simp [Result.marked]
    | some p =>
      simp only [Result.marked, hp, Option.some_bind] at hm
      simpa [Result.marked] using hg p hm

theorem startExam_draftOk (cat : Catalog) (st : Store) (u : Nat) (e : String) (now : Int)
    (h : DraftOk st) : DraftOk (startExam cat st u e now).2 := by
  unfold startExam
  split
  · exact h
  · simp only
    split
    · exact h
    · split
      · exact h
      · exact draftOk_append _ _ h ⟨fun _ => rfl, by simp [Result.marked, Result.create, Result.new]⟩

theorem saveExamProgress_draftOk (st : Store) (u : Nat) (e : String) (c : Option Nat)
    (a : Option AnswerMap) (t : Option Nat) (now : Int) (h : DraftOk st) :
    DraftOk (saveExamProgress st u e c a t now).2 := by
  unfold saveExamProgress
  simp only
  split
  · exact draftOk_update _ _ h (fun r _ => draftOk_setProgress r _ rfl)
  · exact draftOk_append _ _ h (draftOk_setProgress _ _ rfl)

theorem saveAnswer_draftOk (st : Store) (u : Nat) (e : String) (q : Nat) (a : JsVal) (h : DraftOk st) :
    DraftOk (saveAnswer st u e q a).2 := by
  unfold saveAnswer
  split
  · exact h
  · split
    · exact h
    · exact draftOk_update _ _ h (fun r hr => draftOk_mapProgress r _ (fun _ hp => hp) hr)

theorem markQuestion_draftOk (st : Store) (u : Nat) (e : String) (q : Nat) (h : DraftOk st) :
    DraftOk (markQuestion st u e q).2 := by
  unfold markQuestion
  split
  · exact h
  · split
    · exact h
    · exact draftOk_update _ _ h (fun r hr => draftOk_mapProgress r _
        (fun p hp => by simpa [Progress.toggle] using toggleMark_nodup q hp) hr)

theorem clearAnswer_draftOk (st : Store) (u : Nat) (e : String) (q : Nat) (h : DraftOk st) :
    DraftOk (clearAnswer st u e q).2 := by
  unfold clearAnswer
  split
  · exact h
  · split
    · exact h
    · split
      · exact h
      · split
        · exact draftOk_update _ _ h (fun r hr => draftOk_mapProgress r _ (fun _ hp => hp) hr)
        · exact h

theorem submitExam_draftOk (cat : Catalog) (st : Store) (u : Nat) (e : String) (a : AnswerMap)
    (t now : Int) (h : DraftOk st) : DraftOk (submitExam cat st u e a t now).2 :=
  h

theorem handle_draftOk (cat : Catalog) (st : Store) (op : Op) (h : DraftOk st) :
    DraftOk (handle cat st op).2 := by
  cases op with
  | startExam u e now => exact startExam_draftOk cat st u e now h
  | saveExamProgress u e c a t now => exact saveExamProgress_draftOk st u e c a t now h
  | saveAnswer u e q a => exact saveAnswer_draftOk st u e q a h
  | markQuestion u e q => exact markQuestion_draftOk st u e q h
  | clearAnswer u e q => exact clearAnswer_draftOk st u e q h
  | submitExam u e a t now => exact submitExam_draftOk cat st u e a t now h
  | autoSubmitExam u e now =>
    show DraftOk (autoSubmitExam cat st u e now).2
    rw [autoSubmitExam_eq]
    exact h

theorem reachable_draftOk {cat : Catalog} {st : Store} (h : Reachable cat st) : DraftOk st := by
  induction h with
  | empty => exact fun r hr => by simp [Store.empty] at hr
  | step op _ ih => exact handle_draftOk cat _ op ih

theorem openQuery_isOpen {u : Nat} {e : String} {r : Result}
    (h : findOneMatches (openQuery u e) r = true) : r.isOpen = true := by
  simp only [findOneMatches, openQuery, Bool.and_eq_true, List.contains_cons,
    List.contains_nil, Bool.or_false, Bool.or_eq_true, beq_iff_eq] at h
  simp only [Result.isOpen, Bool.or_eq_true, beq_iff_eq]
  rcases h.2 with h' | h'
  · exact Or.inl h'
  · exact Or.inr h'

/-- The record that the open-attempt query selects in a store with well-formed drafts has a
progress object. -/
theorem selected_has_progress {st : Store} {u : Nat} {e : String} {r : Result} (hinv : DraftOk st)
    (hfind : Result.findOne st (openQuery u e) = some r) : ∃ p, r.progress = some p := by
  obtain ⟨hmem, hm⟩ := findOne_some_matches hfind
  have := (hinv r hmem).1 (openQuery_isOpen hm)
  exact Option.isSome_iff_exists.1 this

/-- C30: in the store reached from the empty store by any sequence of lifecycle requests, every
attempt with status `in_progress` or `submitted` has a progress object (not `null`), and
`saveAnswer`, `markQuestion` and `clearAnswer` never end in the internal-error (500) branch. -/
theorem open_attempt_has_progress (cat : Catalog) (ops : List Op) :
    (∀ r ∈ (run cat Store.empty ops).results, r.isOpen = true → r.progress ≠ none) ∧
      (∀ (u : Nat) (e : String) (q : Nat) (a : JsVal) (msg : String),
        (saveAnswer (run cat Store.empty ops) u e q a).1 ≠ .serverError msg) ∧
      (∀ (u : Nat) (e : String) (q : Nat) (msg : String),
        (markQuestion (run cat Store.empty ops) u e q).1 ≠ .serverError msg) ∧
      (∀ (u : Nat) (e : String) (q : Nat) (msg : String),
        (clearAnswer (run cat Store.empty ops) u e q).1 ≠ .serverError msg) := by
  have hinv : DraftOk (run cat Store.empty ops) := reachable_draftOk (run_reachable cat ops)
  refine ⟨?_, ?_, ?_, ?_⟩
  · intro r hr ho hnone
    have := (hinv r hr).1 ho
    rw [hnone] at this
    exact absurd this (by decide)
  · intro u e q a msg
    unfold saveAnswer
    split
    · simp
    · rename_i r hfind
      obtain ⟨p, hp⟩ := selected_has_progress hinv hfind
      split
      · rename_i hnone
        rw [hp] at hnone
        exact absurd hnone (by simp)
      · simp
  · intro u e q msg
    unfold markQuestion
    split
    · simp
    · rename_i r hfind
      obtain ⟨p, hp⟩ := selected_has_progress hinv hfind
      split
      · rename_i hnone
        rw [hp] at hnone
        exact absurd hnone (by simp)
      · simp
  · intro u e q msg
    unfold clearAnswer
    split
    · simp
    · rename_i r hfind
      obtain ⟨p, hp⟩ := selected_has_progress hinv hfind
      split
      · rename_i hnone
        rw [hp] at hnone
        exact absurd hnone (by simp)
      · split
        · simp
        · split <;> simp

theorem toggleMark_flag_iff {m : List Nat} (q : Nat) (h : m.Nodup) :
    (toggleMark m q).2 = true ↔ q ∈ (toggleMark m q).1 := by
  unfold toggleMark
  split
  · simp [h.mem_erase_iff]
  · simp

theorem toggleMark_twice_flag {m : List Nat} (q : Nat) (h : m.Nodup) :
    (toggleMark (toggleMark m q).1 q).2 = !(toggleMark m q).2 := by
  by_cases hq : q ∈ m
  · have hne : q ∉ m.erase q := by simp [h.mem_erase_iff]
    simp [toggleMark, hq, hne]
  · simp [toggleMark, hq]

theorem toggleMark_twice_mem {m : List Nat} (q : Nat) (h : m.Nodup) (x : Nat) :
    x ∈ (toggleMark (toggleMark m q).1 q).1 ↔ x ∈ m := by
  by_cases hq : q ∈ m
  · have hne : q ∉ m.erase q := by simp [h.mem_erase_iff]
    simp only [toggleMark, hq, hne, if_true, if_false, List.mem_append, List.mem_singleton,
      h.mem_erase_iff]
    constructor
    · rintro (⟨-, hx⟩ | rfl)
      · exact hx
      · exact hq
    · intro hx
      by_cases hxq : x = q
      · exact Or.inr hxq
      · exact Or.inl ⟨hxq, hx⟩
  · have hmem : q ∈ m ++ [q] := by simp
    simp only [toggleMark, hq, hmem, if_true, if_false]
    rw [List.erase_append_right _ hq]
    simp

theorem findOne_update_of_preserved (st : Store) (q : ResultQuery) (f : Result → Result)
    (r : Result) (hp : ∀ x, findOneMatches q (f x) = findOneMatches q x)
    (h : Result.findOne st q = some r) : Result.findOne (st.update q f) q = some (f r) := by
  have hl : List.find? (findOneMatches q) st.results = some r := h
  simp only [Result.findOne, Store.update]
  rw [find?_updateFirst _ f hp, hl]
  rfl

/-- What `markQuestion` does when the open-attempt query selects a record, in a store with
well-formed drafts: the reply carries the flag of `toggleMark`, the selected record gets the
toggled list, and it is still the record that the query selects. -/
theorem markQuestion_of_open {st : Store} {u : Nat} {e : String} {r : Result} (q : Nat)
    (hinv : DraftOk st) (hfind : Result.findOne st (openQuery u e) = some r) :
    (markQuestion st u e q).1 = .marked (toggleMark r.marked q).2 ∧
      markedOf (markQuestion st u e q).2 u e = (toggleMark r.marked q).1 ∧
      ∃ r', Result.findOne (markQuestion st u e q).2 (openQuery u e) = some r' ∧
        r'.marked = (toggleMark r.marked q).1 ∧ r'._id = r._id := by
  obtain ⟨p, hp⟩ := selected_has_progress hinv hfind
  have hmark : r.marked = p.markedQuestions.getD [] := by simp [Result.marked, hp]
  have hstep : markQuestion st u e q =
      (.marked (toggleMark r.marked q).2,
        st.update (openQuery u e) (fun r =>
          { r with progress := r.progress.map (fun p => p.toggle q) })) := by
    unfold markQuestion
    simp only [hfind, hp, hmark]
  have hfind' : Result.findOne (st.update (openQuery u e) (fun r =>
      { r with progress := r.progress.map (fun p => p.toggle q) })) (openQuery u e) =
      some { r with progress := r.progress.map (fun p => p.toggle q) } :=
    findOne_update_of_preserved st (openQuery u e) _ r (fun _ => rfl) hfind
  have hm' : ({ r with progress := r.progress.map (fun p => p.toggle q) } : Result).marked =
      (toggleMark r.marked q).1 := by
    simp [Result.marked, hp, Progress.toggle]
  rw [hstep]
  refine ⟨rfl, ?_, _, hfind', hm', rfl⟩
  simp only [markedOf, hfind', hm']

/-- C23: for the open attempt that a store reached by lifecycle requests holds for a user and an
exam, and every question id, `markQuestion` replies `marked = true` if and only if the question
id is in the marked-for-review list of the attempt after the call. -/
theorem markQuestion_flag_is_membership (cat : Catalog) (ops : List Op) (u : Nat) (e : String) (q : Nat)
    (hopen : (Result.findOne (run cat Store.empty ops) (openQuery u e)).isSome = true) :
    ∃ b : Bool, (markQuestion (run cat Store.empty ops) u e q).1 = .marked b ∧
      (b = true ↔ q ∈ markedOf (markQuestion (run cat Store.empty ops) u e q).2 u e) := by
  have hinv : DraftOk (run cat Store.empty ops) := reachable_draftOk (run_reachable cat ops)
  obtain ⟨r, hfind⟩ := Option.isSome_iff_exists.1 hopen
  obtain ⟨h1, h2, -⟩ := markQuestion_of_open q hinv hfind
  have hnd : r.marked.Nodup := (hinv r (findOne_some_matches hfind).1).2
  exact ⟨_, h1, by rw [h2]; exact toggleMark_flag_iff q hnd⟩

theorem markQuestion_flag_is_membership_witness :
    (Result.findOne (run scenarioCatalog Store.empty [.startExam 7 "1" 1000, .markQuestion 7 "1" 2])
      (openQuery 7 "1")).isSome = true ∧
    ∃ b : Bool,
      (markQuestion (run scenarioCatalog Store.empty [.startExam 7 "1" 1000, .markQuestion 7 "1" 2])
        7 "1" 2).1 = .marked b ∧
      (b = true ↔ 2 ∈ markedOf (markQuestion
        (run scenarioCatalog Store.empty [.startExam 7 "1" 1000, .markQuestion 7 "1" 2]) 7 "1" 2).2
        7 "1") :=
  ⟨by decide!,
    markQuestion_flag_is_membership scenarioCatalog [.startExam 7 "1" 1000, .markQuestion 7 "1" 2]
      7 "1" 2 (by decide!)⟩

/-- C24: for the open attempt that a store reached by lifecycle requests holds for a user and an
exam, and every question id, two calls of `markQuestion` in a row with the same id leave the
marked-for-review list with the members it had before the first call, and the two replies carry
opposite `marked` flags. -/
theorem markQuestion_twice (cat : Catalog) (ops : List Op) (u : Nat) (e : String) (q : Nat)
    (hopen : (Result.findOne (run cat Store.empty ops) (openQuery u e)).isSome = true) :
    (∀ x : Nat,
      x ∈ markedOf (markQuestion (markQuestion (run cat Store.empty ops) u e q).2 u e q).2 u e ↔
        x ∈ markedOf (run cat Store.empty ops) u e) ∧
      ∃ b : Bool, (markQuestion (run cat Store.empty ops) u e q).1 = .marked b ∧
        (markQuestion (markQuestion (run cat Store.empty ops) u e q).2 u e q).1 =
          .marked (!b) := by
  have hinv : DraftOk (run cat Store.empty ops) := reachable_draftOk (run_reachable cat ops)
  obtain ⟨r, hfind⟩ := Option.isSome_iff_exists.1 hopen
  have hnd : r.marked.Nodup := (hinv r (findOne_some_matches hfind).1).2
  obtain ⟨h1, -, r', hfind', hm', -⟩ := markQuestion_of_open q hinv hfind
  have hinv' : DraftOk (markQuestion (run cat Store.empty ops) u e q).2 :=
    markQuestion_draftOk _ u e q hinv
  obtain ⟨h1', h2', -⟩ := markQuestion_of_open q hinv' hfind'
  have hbefore : markedOf (run cat Store.empty ops) u e = r.marked := by
    simp only [markedOf, hfind]
  refine ⟨fun x => ?_, _, h1, ?_⟩
  · rw [h2', hm', hbefore]
    exact toggleMark_twice_mem q hnd x
  · rw [h1', hm', toggleMark_twice_flag q hnd]

theorem markQuestion_twice_witness :
    (Result.findOne (run scenarioCatalog Store.empty [.startExam 7 "1" 1000, .markQuestion 7 "1" 2])
      (openQuery 7 "1")).isSome = true ∧
    (∀ x : Nat,
      x ∈ markedOf (markQuestion (markQuestion
        (run scenarioCatalog Store.empty [.startExam 7 "1" 1000, .markQuestion 7 "1" 2])
        7 "1" 2).2 7 "1" 2).2 7 "1" ↔
        x ∈ markedOf (run scenarioCatalog Store.empty
          [.startExam 7 "1" 1000, .markQuestion 7 "1" 2]) 7 "1") ∧
    ∃ b : Bool,
      (markQuestion (run scenarioCatalog Store.empty [.startExam 7 "1" 1000, .markQuestion 7 "1" 2])
        7 "1" 2).1 = .marked b ∧
      (markQuestion (markQuestion
        (run scenarioCatalog Store.empty [.startExam 7 "1" 1000, .markQuestion 7 "1" 2])
        7 "1" 2).2 7 "1" 2).1 = .marked (!b) :=
  ⟨by decide!,
    markQuestion_twice scenarioCatalog [.startExam 7 "1" 1000, .markQuestion 7 "1" 2] 7 "1" 2
      (by decide!)⟩

theorem lookup_delete (k : Nat) : ∀ (m : AnswerMap) (j : Nat),
    (AnswerMap.delete m k).lookup j = if j = k then none else m.lookup j
  | [], j => by simp [AnswerMap.delete]
  | (a, v) :: rest, j => by
    have ih := lookup_delete k rest j
    unfold AnswerMap.delete at ih ⊢
    by_cases hak : a = k
    · subst hak
      by_cases hj : j = a
      · simp [List.filter_cons, hj] at ih ⊢
        exact ih
      · have hja : (j == a) = false := by simpa using hj
        simp [List.filter_cons, List.lookup_cons, hj, hja] at ih ⊢
        exact ih
    · have hne : (a != k) = true := by simpa using hak
      by_cases hj : j = a
      · subst hj
        simp [List.filter_cons, hne, List.lookup_cons, hak]
      · have hja : (j == a) = false := by simpa using hj
        simp only [List.filter_cons, hne, if_true, List.lookup_cons, hja]
        exact ih

/-- The part of C25 that the code does: when the open attempt holds a truthy draft answer for the
question, `clearAnswer` removes that entry from the draft answer map and keeps every other
entry. -/
theorem clearAnswer_removes_truthy_entry {st : Store} {u : Nat} {e : String} {r : Result} {p : Progress}
    {m : AnswerMap} (q : Nat) (hfind : Result.findOne st (openQuery u e) = some r)
    (hp : r.progress = some p) (hm : p.userAnswers = some m)
    (ht : (m.get q).truthy = true) :
    (clearAnswer st u e q).1 = .success "Answer cleared successfully" ∧
      draftAnswersOf (clearAnswer st u e q).2 u e = some (m.delete q) ∧
      ∀ j : Nat, (m.delete q).lookup j = if j = q then none else m.lookup j := by
  have hstep : clearAnswer st u e q =
      (.success "Answer cleared successfully",
        st.update (openQuery u e) (fun r =>
          { r with progress := r.progress.map (fun p => p.clear q) })) := by
    unfold clearAnswer
    simp only [hfind, hp, hm, ht, if_true]
  have hfind' := findOne_update_of_preserved st (openQuery u e)
    (fun r : Result => ({ r with progress := r.progress.map (fun p => p.clear q) } : Result))
    r (fun _ => rfl) hfind
  rw [hstep]
  refine ⟨rfl, ?_, lookup_delete q m⟩
  simp only [draftAnswersOf, hfind']
  simp [hp, Progress.clear, hm]

end ExamSystem
